import Mathlib

/-!
Verification development for the `vastligo` clustering engine
(`src/vastligo/clustering.py`).

The Python source works with astropy `SkyCoord` objects (directions on the
unit sphere, available both as (ra, dec) in degrees and as Cartesian unit
vectors) and numpy float arrays.  We embed it shallowly:

* a sky coordinate is a vector `Vec3` in `ℝ³` (astropy keeps unnormalised
  Cartesian sums, e.g. in `calc_centroid`, and its `separation` only depends
  on the direction, so we model `separation` as the angle between vectors,
  converted to degrees);
* numpy float arithmetic is idealised as real arithmetic;
* the `members` free variable that the Python singleton sweep reads after the
  candidate loop (line 216) is threaded explicitly as `lastMembers`; reading
  it before any iteration is a Python `NameError`, modelled as an `Except`
  error value.

Function and field names follow the source.
-/

namespace Vastligo

/-- A Cartesian 3-vector, the embedding of an astropy Cartesian
representation of a sky coordinate. -/
@[ext]
structure Vec3 where
  x : ℝ
  y : ℝ
  z : ℝ

namespace Vec3

def add (u v : Vec3) : Vec3 := ⟨u.x + v.x, u.y + v.y, u.z + v.z⟩

def sub (u v : Vec3) : Vec3 := ⟨u.x - v.x, u.y - v.y, u.z - v.z⟩

def dot (u v : Vec3) : ℝ := u.x * v.x + u.y * v.y + u.z * v.z

def cross (u v : Vec3) : Vec3 :=
  ⟨u.y * v.z - u.z * v.y, u.z * v.x - u.x * v.z, u.x * v.y - u.y * v.x⟩

def smul (a : ℝ) (v : Vec3) : Vec3 := ⟨a * v.x, a * v.y, a * v.z⟩

/-- Division of a vector by a scalar (`numpy` elementwise division). -/
noncomputable def divS (v : Vec3) (a : ℝ) : Vec3 := ⟨v.x / a, v.y / a, v.z / a⟩

noncomputable def norm (v : Vec3) : ℝ := Real.sqrt (v.dot v)

def zero : Vec3 := ⟨0, 0, 0⟩

end Vec3

/-- Degrees to radians. -/
noncomputable def deg2rad (d : ℝ) : ℝ := d * Real.pi / 180

/-- The unit vector of a sky position given as (ra, dec) in degrees;
this is how astropy realises `SkyCoord(ra*u.deg, dec*u.deg).cartesian`. -/
noncomputable def unitVec (ra dec : ℝ) : Vec3 :=
  ⟨Real.cos (deg2rad dec) * Real.cos (deg2rad ra),
   Real.cos (deg2rad dec) * Real.sin (deg2rad ra),
   Real.sin (deg2rad dec)⟩

/-- Great-circle separation of two (not necessarily normalised) Cartesian
coordinates, in degrees: the angle between the two directions.  This is
astropy `c1.separation(c2)` for the coordinates embedded as vectors. -/
noncomputable def sepVec (u v : Vec3) : ℝ :=
  Real.arccos (u.dot v / (u.norm * v.norm)) * 180 / Real.pi

/-- `np.round(x, 5)`: round to 5 decimal places.  (numpy rounds exact ties
to even; this model rounds ties up — the two differ only at exact ties of
the 6th decimal, which never occur in any value this development computes.) -/
noncomputable def round5 (x : ℝ) : ℝ := ((round (x * 100000) : ℤ) : ℝ) / 100000

/-- `calc_separation` (lines 16–30): the N×N matrix of pairwise separations
in degrees, rounded to 5 decimals, as a function of the two indices. -/
noncomputable def calc_separation (coords : List Vec3) : ℕ → ℕ → ℝ :=
  fun i j => round5 (sepVec (coords.getD i Vec3.zero) (coords.getD j Vec3.zero))

/-- `get_rad` (lines 46–55): radius (degrees) at which the ATCA beam reaches
relative sensitivity `P`.  `0.5*fwhm*sqrt(-log P/log 2)/nu` arcmin, `/60`. -/
noncomputable def get_rad (P : ℝ) (fwhm : ℝ := 48.3) (nu : ℝ := 5.5) : ℝ :=
  0.5 * fwhm * Real.sqrt (-Real.log P / Real.log 2) / nu / 60

/-- `beam_fit` (lines 57–66): relative sensitivity of the beam at radius `x`
(in the arcminute scale in which the selector calls it, line 206). -/
noncomputable def beam_fit (x : ℝ) (fwhm : ℝ := 48.3) (nu : ℝ := 5.5) : ℝ :=
  Real.exp (-4 * Real.log 2 * (x * nu / fwhm) ^ 2)

/-- `calc_centroid` (lines 95–105): the Cartesian sum of the coordinates
(astropy keeps the unnormalised sum; only its direction is ever used). -/
def calc_centroid (coords : List Vec3) : Vec3 :=
  coords.foldl Vec3.add Vec3.zero

/-- The `K = 0.5*norm(A×B)` factor of `calc_circumcentre` (line 125); the
source divides by `8*K**2` with no guard against `K = 0`. -/
noncomputable def circumK (coords : List Vec3) : ℝ :=
  let c0 := coords.getD 0 Vec3.zero
  let c1 := coords.getD 1 Vec3.zero
  let c2 := coords.getD 2 Vec3.zero
  0.5 * (Vec3.cross (c1.sub c0) (c2.sub c1)).norm

/-- `calc_circumcentre` (lines 108–129): circumcentre of three coordinates
via the closed-form 3-space formula
`E = 0.5*(c0+c2) + (A·B) * (C×(A×B)) / (8*K²)`. -/
noncomputable def calc_circumcentre (coords : List Vec3) : Vec3 :=
  let c0 := coords.getD 0 Vec3.zero
  let c1 := coords.getD 1 Vec3.zero
  let c2 := coords.getD 2 Vec3.zero
  let A := c1.sub c0
  let B := c2.sub c1
  let C := c0.sub c2
  let AB := A.cross B
  let K := 0.5 * AB.norm
  (Vec3.add c0 c2).smul 0.5 |>.add
    (Vec3.divS ((C.cross AB).smul (A.dot B)) (8 * K ^ 2))

/-- `np.argmax`: index of the first occurrence of the maximum. -/
noncomputable def argmaxAux : List ℝ → ℕ → ℕ → ℝ → ℕ
  | [], _, best, _ => best
  | v :: rest, i, best, bestVal =>
    if bestVal < v then argmaxAux rest (i + 1) i v
    else argmaxAux rest (i + 1) best bestVal

/-- `np.argmax` over a list (0 on the empty list, where numpy errors). -/
noncomputable def argmax : List ℝ → ℕ
  | [] => 0
  | v :: rest => argmaxAux rest 1 0 v

/-- `np.max` over a list (0 on the empty list, where numpy errors). -/
noncomputable def listMax : List ℝ → ℝ
  | [] => 0
  | v :: rest => rest.foldl max v

/-- `get_centre` (lines 132–162): first guess is the centroid of the first
and last members; if the member farthest from it is an interior one, switch
to the circumcentre of (first, farthest, last).  The separation-matrix
subset `subset_seps` is computed (line 143) but never used. -/
noncomputable def get_centre (members : List ℕ) (coords : List Vec3)
    (seps : ℕ → ℕ → ℝ) : Vec3 :=
  let _subset_seps : ℕ → ℕ → ℝ :=
    fun i j => seps (members.getD i 0) (members.getD j 0)
  let centre := calc_centroid
    [coords.getD (members.getD 0 0) Vec3.zero,
     coords.getD (members.getD (members.length - 1) 0) Vec3.zero]
  let dists := members.map (fun m => sepVec centre (coords.getD m Vec3.zero))
  let max_dist_arg := argmax dists
  if max_dist_arg ≠ 0 ∧ max_dist_arg ≠ dists.length - 1 then
    calc_circumcentre
      [coords.getD (members.getD 0 0) Vec3.zero,
       coords.getD (members.getD max_dist_arg 0) Vec3.zero,
       coords.getD (members.getD (members.length - 1) 0) Vec3.zero]
  else centre

/-! ## Hierarchical clustering (spec-modelled) and tree decoding -/

/-- One merge event `(left_id, right_id, distance, size)` of the linkage
matrix (spec §4.2). -/
structure LinkRow where
  id1 : ℕ
  id2 : ℕ
  dist : ℝ
  size : ℕ

/-- Working state of the agglomerative clusterer: the active clusters (id and
member list, in creation order, so ids are ascending), the merge rows emitted
so far, and the id the next merge will receive. -/
structure LinkState where
  active : List (ℕ × List ℕ)
  rows : List LinkRow
  nextId : ℕ

/-- Complete-linkage distance between two member lists: the maximum pairwise
base distance (spec §4.2). -/
noncomputable def clusterDist (d : ℕ → ℕ → ℝ) (ms1 ms2 : List ℕ) : ℝ :=
  listMax (ms1.map (fun i => ms2.map (fun j => d i j))).flatten

/-- All position pairs `(p, q)` with `p < q < n`, in lexicographic order. -/
def pairList (n : ℕ) : List (ℕ × ℕ) :=
  (List.range n).flatMap fun i => (List.range' (i + 1) (n - (i + 1))).map fun j => (i, j)

/-- First pair attaining the minimum of `f` (strict-improvement scan, so ties
keep the earlier pair: the spec's lowest-originating-index tie-break). -/
noncomputable def selectMin (f : ℕ × ℕ → ℝ) : List (ℕ × ℕ) → ℕ × ℕ → ℕ × ℕ
  | [], best => best
  | p :: ps, best => if f p < f best then selectMin f ps p else selectMin f ps best

/-- The merging pair of positions chosen among `n` active clusters. -/
noncomputable def bestPair (f : ℕ × ℕ → ℝ) (n : ℕ) : ℕ × ℕ :=
  match pairList n with
  | [] => (0, 0)
  | p :: ps => selectMin f ps p

/-- Complete-linkage distance between the active clusters at positions `pq`. -/
noncomputable def stepDist (d : ℕ → ℕ → ℝ) (act : List (ℕ × List ℕ))
    (pq : ℕ × ℕ) : ℝ :=
  clusterDist d (act.getD pq.1 (0, [])).2 (act.getD pq.2 (0, [])).2

/-- Modelled from the spec: one step of scipy
`linkage(dist, method='complete', optimal_ordering=True)` (spec §4.2), whose
code is an external library call not in this repository.  Merge the pair of
active clusters minimizing the maximum pairwise distance, ties broken by
lowest originating index; emit the row and append the merged cluster with a
fresh id.  The optional leaf-reordering pass is a heuristic the spec
explicitly does not guarantee and is not modelled. -/
noncomputable def linkStep (d : ℕ → ℕ → ℝ) (st : LinkState) : LinkState :=
  if 2 ≤ st.active.length then
    let pq := bestPair (stepDist d st.active) st.active.length
    let cp := st.active.getD pq.1 (0, [])
    let cq := st.active.getD pq.2 (0, [])
    let merged := cp.2 ++ cq.2
    { active := ((st.active.eraseIdx pq.2).eraseIdx pq.1) ++ [(st.nextId, merged)],
      rows := st.rows ++ [⟨cp.1, cq.1, stepDist d st.active pq, merged.length⟩],
      nextId := st.nextId + 1 }
  else st

/-- Iterate a function `n` times. -/
def iterN (f : α → α) : ℕ → α → α
  | 0, a => a
  | n + 1, a => iterN f n (f a)

/-- Initial clusterer state: each target its own cluster. -/
def linkInit (N : ℕ) : LinkState :=
  ⟨(List.range N).map (fun i => (i, [i])), [], N⟩

/-- Modelled from the spec: the full linkage matrix of the
`HierarchicalClusterer` (spec §4.2), `N − 1` merge steps starting from the
singleton clusters. -/
noncomputable def linkage (d : ℕ → ℕ → ℝ) (N : ℕ) : List LinkRow :=
  (iterN (linkStep d) (N - 1) (linkInit N)).rows

/-- First value bound to key `k` in an association list (`{}` dict lookup). -/
def lookupD (l : List (ℕ × List ℕ)) (k : ℕ) : List ℕ :=
  match l.find? (fun p => p.1 == k) with
  | some p => p.2
  | none => []

/-- Recursion of `extract_levels`: process merge rows in order, giving row
`rowIdx` the id `rowIdx + nLabels` and resolving each child id to its member
list (leaf ids `≤ nLabels - 1` stand for themselves). -/
def extract_levels_go (nLabels : ℕ) :
    List LinkRow → ℕ → List (ℕ × List ℕ) → List (ℕ × List ℕ)
  | [], _, clusters => clusters
  | row :: rest, rowIdx, clusters =>
    let cluster_n := rowIdx + nLabels
    let this_clust :=
      (if nLabels - 1 < row.id1 then lookupD clusters row.id1 else [row.id1]) ++
      (if nLabels - 1 < row.id2 then lookupD clusters row.id2 else [row.id2])
    extract_levels_go nLabels rest (rowIdx + 1) (clusters ++ [(cluster_n, this_clust)])

/-- `extract_levels` (lines 69–93): decondense the linkage matrix into a map
from each merge-node id to its member-index list. -/
def extract_levels (row_clusters : List LinkRow) (labels : List ℕ) :
    List (ℕ × List ℕ) :=
  extract_levels_go labels.length row_clusters 0 []

/-! ## Greedy pointing selection -/

/-- One entry of the returned `cluster_info` dict: member indices, the stored
centre coordinate(s), and the relative integration-time multiplier.  The
centre is a list because the Python singleton sweep stores `coords[members]`
(an array of coordinates) while accepted clusters store a single centre. -/
structure PointingRecord where
  members : List ℕ
  centroid : List Vec3
  int_time : ℝ

/-- State of `do_clustering`'s candidate loop: the monotone `assigned` list,
the accumulated `cluster_info`, and the current value of the Python loop
variable `members` (`none` before the first iteration, when reading it is a
`NameError`). -/
structure SelState where
  assigned : List ℕ
  info : List (ℕ × PointingRecord)
  lastMembers : Option (List ℕ)

/-- One iteration of the candidate loop of `do_clustering` (lines 181–211):
bind `members`, skip if any member is assigned, otherwise accept iff the
maximum member distance from the estimated centre is strictly below the
break-even radius `get_rad(num_targets ** -0.5)`; on acceptance extend
`assigned` and record members, centre and `beam_fit(dist*60) ** -2 / num`. -/
noncomputable def selectStep (coords : List Vec3) (seps : ℕ → ℕ → ℝ)
    (st : SelState) (c : ℕ × List ℕ) : SelState :=
  let members := c.2
  if members.any (fun m => st.assigned.contains m) then
    { st with lastMembers := some members }
  else
    let num_targets := members.length
    let centre := get_centre members coords seps
    let break_even_dist := get_rad ((num_targets : ℝ) ^ (-(1 / 2) : ℝ))
    let dist_from_centre :=
      listMax (members.map (fun m => sepVec centre (coords.getD m Vec3.zero)))
    if dist_from_centre < break_even_dist then
      { assigned := st.assigned ++ members,
        info := st.info ++ [(c.1, ⟨members, [centre],
          beam_fit (dist_from_centre * 60) ^ (-2 : ℝ) / (num_targets : ℝ)⟩)],
        lastMembers := some members }
    else { st with lastMembers := some members }

/-- Insert into a key-descending association list (used to model iterating
`sorted(all_clusters.keys(), reverse=True)`). -/
def insertDesc (x : ℕ × List ℕ) : List (ℕ × List ℕ) → List (ℕ × List ℕ)
  | [] => [x]
  | y :: ys => if y.1 ≤ x.1 then x :: y :: ys else y :: insertDesc x ys

/-- Sort an association list by key, descending. -/
def sortDesc (l : List (ℕ × List ℕ)) : List (ℕ × List ℕ) :=
  l.foldr insertDesc []

/-- Failure modes of the Python source reachable in `do_clustering`: reading
the loop variable `members` in the singleton sweep (line 216) when the
candidate loop never ran. -/
inductive PyErr where
  | nameErrorMembers
deriving DecidableEq

/-- `do_clustering` (lines 165–218): walk candidate clusters in descending id
order through `selectStep`, then give every still-unassigned target its own
record with multiplier `1.0` and centre `coords[members]` — the stale loop
variable `members`, not the singleton's own position (the suspected defect
flagged in spec §9).  The Python `cluster_info` dict is modelled as an
append-only association list: in the pipeline the candidate keys (`≥ N`)
and the singleton keys (`< N`) are disjoint, so no dict overwrite is lost.
The locals `clusters`, `clustering`, `centroids` and the `int_time` array
do not contribute to the returned `cluster_info` and are not modelled. -/
noncomputable def do_clustering (coords : List Vec3)
    (all_clusters : List (ℕ × List ℕ)) (seps : ℕ → ℕ → ℝ) :
    Except PyErr (List (ℕ × PointingRecord)) :=
  let st := (sortDesc all_clusters).foldl (selectStep coords seps)
    ⟨[], [], none⟩
  let unassigned :=
    (List.range coords.length).filter (fun i => !(st.assigned.contains i))
  if unassigned.isEmpty then Except.ok st.info
  else
    match st.lastMembers with
    | none => Except.error PyErr.nameErrorMembers
    | some members =>
      Except.ok (st.info ++ unassigned.map (fun i =>
        (i, ⟨[i], members.map (fun m => coords.getD m Vec3.zero), 1.0⟩)))

/-- The module-level pipeline (lines 222–234) applied to a coordinate list:
separations, complete-linkage clustering, tree decoding, greedy selection.
(The target labels only enter through their count.) -/
noncomputable def pipeline (coords : List Vec3) :
    Except PyErr (List (ℕ × PointingRecord)) :=
  let seps := calc_separation coords
  let linked := linkage seps coords.length
  let all_clusters := extract_levels linked (List.range coords.length)
  do_clustering coords all_clusters seps

/-! ## Concrete inputs and statement-level predicates used by the claims -/

/-- The 4-target scenario of spec §8: two pairs on the equator, `0.01°`
inside each pair, `5°` between the pairs. -/
noncomputable def coords4 : List Vec3 :=
  [unitVec 0 0, unitVec 0.01 0, unitVec 5 0, unitVec 5.01 0]

/-- Three equatorial targets: a tight pair (indices 0, 1) and one isolated
target (index 2) far from it. -/
noncomputable def coords3 : List Vec3 :=
  [unitVec 0.01 0, unitVec 0 0, unitVec 50 0]

/-- The relative integration-time multiplier both accepted pairs of the
4-target scenario receive: `beam_fit(0.3 arcmin)^-2 / 2`. -/
noncomputable def relInt2 : ℝ := beam_fit (0.3 : ℝ) ^ (-2 : ℝ) / 2

/-- The record list produced by the pipeline on `coords4` (empty if the run
errored). -/
noncomputable def outRecords4 : List (ℕ × PointingRecord) :=
  match pipeline coords4 with
  | Except.ok l => l
  | Except.error _ => []

/-- Placeholder entry used as the `getD` default when indexing output lists. -/
def noRecord : ℕ × PointingRecord := (0, ⟨[], [], 0⟩)

/-- What one candidate-loop iteration must do to a cluster none of whose
members is assigned: accept exactly when the maximum member distance from
the estimated centre is strictly below the break-even radius
`get_rad(num_members ** -0.5)`, and on acceptance extend `assigned` by the
members and record the multiplier `beam_fit(dist*60) ** -2 / num_members`. -/
noncomputable def stepSpec (coords : List Vec3) (seps : ℕ → ℕ → ℝ)
    (st : SelState) (k : ℕ) (ms : List ℕ) : Prop :=
  let centre := get_centre ms coords seps
  let dist := listMax (ms.map (fun m => sepVec centre (coords.getD m Vec3.zero)))
  let break_even := get_rad ((ms.length : ℝ) ^ (-(1 / 2) : ℝ))
  (dist < break_even →
    selectStep coords seps st (k, ms) =
      { assigned := st.assigned ++ ms,
        info := st.info ++ [(k, ⟨ms, [centre],
          beam_fit (dist * 60) ^ (-2 : ℝ) / (ms.length : ℝ)⟩)],
        lastMembers := some ms }) ∧
  (¬ dist < break_even →
    selectStep coords seps st (k, ms) = { st with lastMembers := some ms })

/-- What the estimator must return on a two-member cluster: the centroid of
the two members (whose direction is the spherical midpoint), with the
maximum member distance from it equal to half the members' separation. -/
noncomputable def twoMemberOK (coords : List Vec3) (seps : ℕ → ℕ → ℝ)
    (i j : ℕ) : Prop :=
  get_centre [i, j] coords seps =
    calc_centroid [coords.getD i Vec3.zero, coords.getD j Vec3.zero] ∧
  listMax ([i, j].map (fun m =>
      sepVec (get_centre [i, j] coords seps) (coords.getD m Vec3.zero))) =
    sepVec (coords.getD i Vec3.zero) (coords.getD j Vec3.zero) / 2

/-- Coverage statement for the pipeline output: the run succeeds, the member
sets of the records are pairwise disjoint, and their union is exactly the
input index range. -/
noncomputable def coverageOK (coords : List Vec3) : Prop :=
  ∃ l, pipeline coords = Except.ok l ∧
    List.Pairwise (fun p q => ∀ m ∈ p.2.members, m ∉ q.2.members) l ∧
    (∀ i, (∃ r ∈ l, i ∈ r.2.members) ↔ i < coords.length)

/-- Tree-completeness statement: `N - 1` merge rows, and the decoded member
list of the root node `2N - 2` is a permutation of the input index range. -/
noncomputable def treeOK (d : ℕ → ℕ → ℝ) (N : ℕ) (labels : List ℕ) : Prop :=
  (linkage d N).length = N - 1 ∧
  (lookupD (extract_levels (linkage d N) labels) (2 * N - 2)).Perm (List.range N)

/-- Invariant of the agglomerative clusterer's state over `N` targets:
ids are consistent with the number of emitted rows, the active member lists
partition the index range, and `extract_levels_go` decodes every emitted row
to exactly the member list the state carries. -/
def LinkInv (N : ℕ) (st : LinkState) : Prop :=
  st.nextId = N + st.rows.length ∧
  st.active.length + st.rows.length = N ∧
  ((st.active.map Prod.snd).flatten).Perm (List.range N) ∧
  (∀ p ∈ st.active, p.1 < st.nextId) ∧
  ((extract_levels_go N st.rows 0 []).map Prod.fst =
    List.range' N st.rows.length) ∧
  (∀ p ∈ st.active,
    (if N - 1 < p.1 then lookupD (extract_levels_go N st.rows 0 []) p.1
     else [p.1]) = p.2) ∧
  (∀ q ∈ extract_levels_go N st.rows 0 [], ∀ m ∈ q.2, m < N)

/-- Invariant of the greedy selector's fold: `assigned` is exactly the
concatenation of the recorded member lists, the records are pairwise
disjoint, and every recorded member is in range. -/
def SelInv (N : ℕ) (st : SelState) : Prop :=
  st.assigned = (st.info.map (fun r => r.2.members)).flatten ∧
  List.Pairwise (fun p q => ∀ m ∈ p.2.members, m ∉ q.2.members) st.info ∧
  (∀ r ∈ st.info, ∀ m ∈ r.2.members, m < N)

/-! ## Helper lemmas: spherical geometry -/

lemma Vec3.dot_comm (u v : Vec3) : u.dot v = v.dot u := by
  unfold Vec3.dot; ring

lemma Vec3.add_comm (u v : Vec3) : u.add v = v.add u := by
  show Vec3.mk (u.x + v.x) (u.y + v.y) (u.z + v.z) =
    Vec3.mk (v.x + u.x) (v.y + u.y) (v.z + u.z)
  congr 1 <;> ring

lemma Vec3.dot_self_nonneg (v : Vec3) : 0 ≤ v.dot v := by
  have h : v.dot v = v.x ^ 2 + v.y ^ 2 + v.z ^ 2 := by unfold Vec3.dot; ring
  rw [h]; positivity

lemma sepVec_comm (u v : Vec3) : sepVec u v = sepVec v u := by
  unfold sepVec; rw [Vec3.dot_comm u v, mul_comm u.norm v.norm]

lemma centroid_pair (u v : Vec3) : calc_centroid [u, v] = u.add v := by
  show (Vec3.zero.add u).add v = u.add v
  ext <;> simp [Vec3.add, Vec3.zero]

/-- Converting an angle given in degrees (of size at most 180) through
radians, cosine, arccos and back to degrees is the absolute value. -/
lemma arccos_cos_deg (x : ℝ) (h : |x| ≤ 180) :
    Real.arccos (Real.cos (x * (Real.pi / 180))) * 180 / Real.pi = |x| := by
  have hπ : 0 < Real.pi := Real.pi_pos
  have h1 : Real.cos (x * (Real.pi / 180)) = Real.cos (|x| * (Real.pi / 180)) := by
    rcases abs_cases x with ⟨hx, _⟩ | ⟨hx, _⟩
    · rw [hx]
    · rw [hx, neg_mul, Real.cos_neg]
  have h2 : |x| * (Real.pi / 180) ≤ Real.pi := by
    calc |x| * (Real.pi / 180) ≤ 180 * (Real.pi / 180) :=
          mul_le_mul_of_nonneg_right h (by positivity)
      _ = Real.pi := by field_simp
  rw [h1, Real.arccos_cos (by positivity) h2]
  field_simp

/-- If the normalised dot product of two vectors is the cosine of `x`
degrees, their separation is `|x|` degrees. -/
lemma sepVec_eq_deg (u v : Vec3) (x : ℝ) (hx : |x| ≤ 180)
    (hdot : u.dot v / (u.norm * v.norm) = Real.cos (x * (Real.pi / 180))) :
    sepVec u v = |x| := by
  unfold sepVec
  rw [hdot, arccos_cos_deg x hx]

lemma deg2rad_zero : deg2rad 0 = 0 := by unfold deg2rad; ring

lemma norm_unitVec (a b : ℝ) : (unitVec a b).norm = 1 := by
  have h1 := Real.sin_sq_add_cos_sq (deg2rad a)
  have h2 := Real.sin_sq_add_cos_sq (deg2rad b)
  have h : (unitVec a b).dot (unitVec a b) = 1 := by
    unfold unitVec Vec3.dot
    have e : Real.cos (deg2rad b) * Real.cos (deg2rad a) *
        (Real.cos (deg2rad b) * Real.cos (deg2rad a)) +
        Real.cos (deg2rad b) * Real.sin (deg2rad a) *
        (Real.cos (deg2rad b) * Real.sin (deg2rad a)) +
        Real.sin (deg2rad b) * Real.sin (deg2rad b) =
        Real.cos (deg2rad b) ^ 2 *
          (Real.sin (deg2rad a) ^ 2 + Real.cos (deg2rad a) ^ 2) +
        Real.sin (deg2rad b) ^ 2 := by ring
    rw [e, h1]
    nlinarith [h2]
  unfold Vec3.norm
  rw [h, Real.sqrt_one]

/-- Separation of two equatorial positions given by their right ascensions:
the absolute difference of the angles (for differences up to 180°). -/
lemma sep_equator (a b : ℝ) (h : |a - b| ≤ 180) :
    sepVec (unitVec a 0) (unitVec b 0) = |a - b| := by
  apply sepVec_eq_deg _ _ _ h
  rw [norm_unitVec, norm_unitVec, mul_one, div_one]
  have e : (unitVec a 0).dot (unitVec b 0) =
      Real.cos (deg2rad a) * Real.cos (deg2rad b) +
      Real.sin (deg2rad a) * Real.sin (deg2rad b) := by
    unfold unitVec Vec3.dot
    rw [deg2rad_zero, Real.cos_zero, Real.sin_zero]
    ring
  rw [e, ← Real.cos_sub]
  congr 1
  unfold deg2rad; ring

/-- Separation between the centroid of two equatorial positions and a third
equatorial position: distance to the midpoint angle. -/
lemma sep_centroid_equator (a b c : ℝ) (hab : |a - b| < 180)
    (hc : |(a + b) / 2 - c| ≤ 180) :
    sepVec (calc_centroid [unitVec a 0, unitVec b 0]) (unitVec c 0) =
      |(a + b) / 2 - c| := by
  have hπ : 0 < Real.pi := Real.pi_pos
  set A := deg2rad a with hA
  set B := deg2rad b with hB
  set C := deg2rad c with hC
  have hABlt : |A - B| < Real.pi := by
    have e : A - B = (a - b) * (Real.pi / 180) := by
      rw [hA, hB]; unfold deg2rad; ring
    rw [e, abs_mul, abs_of_pos (by positivity : (0:ℝ) < Real.pi / 180)]
    calc |a - b| * (Real.pi / 180) < 180 * (Real.pi / 180) :=
          mul_lt_mul_of_pos_right hab (by positivity)
      _ = Real.pi := by field_simp
  have hABlt' := abs_lt.mp hABlt
  have hcosh : 0 < Real.cos ((A - B) / 2) := by
    apply Real.cos_pos_of_mem_Ioo
    rw [Set.mem_Ioo]
    constructor <;> [linarith [hABlt'.1]; linarith [hABlt'.2]]
  rw [centroid_pair]
  apply sepVec_eq_deg _ _ _ hc
  have hdot : ((unitVec a 0).add (unitVec b 0)).dot (unitVec c 0) =
      2 * Real.cos ((A + B) / 2 - C) * Real.cos ((A - B) / 2) := by
    have e1 : ((unitVec a 0).add (unitVec b 0)).dot (unitVec c 0) =
        (Real.cos A * Real.cos C + Real.sin A * Real.sin C) +
        (Real.cos B * Real.cos C + Real.sin B * Real.sin C) := by
      unfold unitVec Vec3.add Vec3.dot
      rw [deg2rad_zero, Real.cos_zero, Real.sin_zero]
      ring
    rw [e1, ← Real.cos_sub, ← Real.cos_sub, Real.cos_add_cos]
    congr 2 <;> ring_nf
  have hself : ((unitVec a 0).add (unitVec b 0)).dot
      ((unitVec a 0).add (unitVec b 0)) = 4 * Real.cos ((A - B) / 2) ^ 2 := by
    have e1 : ((unitVec a 0).add (unitVec b 0)).dot
        ((unitVec a 0).add (unitVec b 0)) =
        (Real.sin A ^ 2 + Real.cos A ^ 2) + (Real.sin B ^ 2 + Real.cos B ^ 2) +
        2 * (Real.cos A * Real.cos B + Real.sin A * Real.sin B) := by
      unfold unitVec Vec3.add Vec3.dot
      rw [deg2rad_zero, Real.cos_zero, Real.sin_zero]
      ring
    rw [e1, Real.sin_sq_add_cos_sq, Real.sin_sq_add_cos_sq, ← Real.cos_sub]
    have e2 := Real.cos_sq ((A - B) / 2)
    rw [show 2 * ((A - B) / 2) = A - B by ring] at e2
    rw [e2]; ring
  have hnorm : ((unitVec a 0).add (unitVec b 0)).norm =
      2 * Real.cos ((A - B) / 2) := by
    unfold Vec3.norm
    rw [hself, show 4 * Real.cos ((A - B) / 2) ^ 2 =
      (2 * Real.cos ((A - B) / 2)) ^ 2 by ring]
    exact Real.sqrt_sq (by linarith)
  rw [hdot, hnorm, norm_unitVec, mul_one]
  rw [show 2 * Real.cos ((A + B) / 2 - C) * Real.cos ((A - B) / 2) /
      (2 * Real.cos ((A - B) / 2)) = Real.cos ((A + B) / 2 - C) from by
    field_simp
    ring]
  congr 1
  rw [hA, hB, hC]; unfold deg2rad; ring

/-! ## Helper lemmas: the two-point midpoint bisects the separation -/

lemma sub_dot_self (u v : Vec3) :
    (u.sub v).dot (u.sub v) = u.dot u - 2 * u.dot v + v.dot v := by
  unfold Vec3.sub Vec3.dot; ring

lemma add_dot_left (u v : Vec3) : (u.add v).dot u = u.dot u + v.dot u := by
  unfold Vec3.add Vec3.dot; ring

lemma add_dot_self (u v : Vec3) :
    (u.add v).dot (u.add v) = u.dot u + 2 * u.dot v + v.dot v := by
  unfold Vec3.add Vec3.dot; ring

/-- For unit, non-antipodal `u` and `v`, the angle between `u + v` and `u`
is half the angle between `u` and `v`. -/
lemma sep_mean_left (u v : Vec3) (hu : u.dot u = 1) (hv : v.dot v = 1)
    (hc : -1 < u.dot v) : sepVec (u.add v) u = sepVec u v / 2 := by
  have hπ : 0 < Real.pi := Real.pi_pos
  set c := u.dot v with hcdef
  have hc1 : c ≤ 1 := by
    have h := Vec3.dot_self_nonneg (u.sub v)
    rw [sub_dot_self, hu, hv] at h
    linarith
  have h1c : 0 < 1 + c := by linarith
  have hnormu : u.norm = 1 := by unfold Vec3.norm; rw [hu, Real.sqrt_one]
  have hnormv : v.norm = 1 := by unfold Vec3.norm; rw [hv, Real.sqrt_one]
  set θ := Real.arccos c with hθdef
  have hθ0 : 0 ≤ θ := Real.arccos_nonneg c
  have hθπ : θ ≤ Real.pi := Real.arccos_le_pi c
  have hcosθ : Real.cos θ = c := Real.cos_arccos (by linarith) hc1
  have hd : (u.add v).dot u = 1 + c := by
    rw [add_dot_left, hu, Vec3.dot_comm v u, ← hcdef]
  have hself : (u.add v).dot (u.add v) = 2 + 2 * c := by
    rw [add_dot_self, hu, hv, ← hcdef]; ring
  have hnorm : (u.add v).norm = Real.sqrt (2 + 2 * c) := by
    unfold Vec3.norm; rw [hself]
  have hratio : (u.add v).dot u / ((u.add v).norm * u.norm) =
      Real.cos (θ / 2) := by
    rw [hd, hnorm, hnormu, mul_one,
      Real.cos_half (by linarith) (by linarith), hcosθ]
    have h2 : Real.sqrt ((1 + c) / 2) * Real.sqrt (2 + 2 * c) = 1 + c := by
      rw [← Real.sqrt_mul (by positivity),
        show (1 + c) / 2 * (2 + 2 * c) = (1 + c) ^ 2 by ring]
      exact Real.sqrt_sq (by linarith)
    have hsq : 0 < Real.sqrt (2 + 2 * c) := Real.sqrt_pos.mpr (by linarith)
    rw [div_eq_iff (ne_of_gt hsq)]
    linarith [h2]
  unfold sepVec
  rw [hratio, Real.arccos_cos (by linarith) (by linarith),
    hnormu, hnormv, mul_one, div_one, ← hcdef, ← hθdef]
  ring

lemma sep_mean_right (u v : Vec3) (hu : u.dot u = 1) (hv : v.dot v = 1)
    (hc : -1 < u.dot v) : sepVec (u.add v) v = sepVec u v / 2 := by
  have h := sep_mean_left v u hv hu (by rw [Vec3.dot_comm]; exact hc)
  rw [Vec3.add_comm v u] at h
  rw [h, sepVec_comm v u]

lemma argmax_pair_self (s : ℝ) : argmax [s, s] = 0 := by
  unfold argmax argmaxAux
  rw [if_neg (lt_irrefl s)]
  rfl

lemma listMax_pair_self (s : ℝ) : listMax [s, s] = s := by
  unfold listMax
  show max s s = s
  exact max_self s

/-! ## Claim theorems: beam model, estimator, and seps-independence -/

/-- C5: for every `P` in `(0, 1]`, `beam_fit (get_rad P * 60) = P` — the
beam model's inverse and forward maps round-trip exactly (the `* 60`
converts the degrees returned by `get_rad` to the arcminute scale in which
the selector evaluates `beam_fit`, line 206). -/
theorem C5_beam_round_trip (P : ℝ) (h1 : 0 < P) (h2 : P ≤ 1) :
    beam_fit (get_rad P * 60) = P := by
  have hlog2 : 0 < Real.log 2 := Real.log_pos (by norm_num)
  have hP : Real.log P ≤ 0 := Real.log_nonpos (le_of_lt h1) h2
  have hratio : 0 ≤ -Real.log P / Real.log 2 :=
    div_nonneg (by linarith) (le_of_lt hlog2)
  have e1 : get_rad P * 60 * 5.5 / 48.3 =
      Real.sqrt (-Real.log P / Real.log 2) / 2 := by
    unfold get_rad; ring
  unfold beam_fit
  rw [e1, div_pow, Real.sq_sqrt hratio,
    show -4 * Real.log 2 * (-Real.log P / Real.log 2 / 2 ^ 2) = Real.log P from by
      field_simp
      ring]
  exact Real.exp_log h1

/-- Witness for C5 at `P = 1/2`. -/
theorem C5_beam_round_trip_witness :
    (0 : ℝ) < 1 / 2 ∧ (1 : ℝ) / 2 ≤ 1 ∧
      beam_fit (get_rad (1 / 2) * 60) = 1 / 2 :=
  ⟨by norm_num, by norm_num,
    C5_beam_round_trip (1 / 2) (by norm_num) (by norm_num)⟩

/-- C10: `get_centre` ignores its separation-matrix argument: the subset
`subset_seps` is computed (line 143) but never used, so any two separation
matrices give the same centre. -/
theorem C10_seps_unused (members : List ℕ) (coords : List Vec3)
    (seps1 seps2 : ℕ → ℕ → ℝ) :
    get_centre members coords seps1 = get_centre members coords seps2 := rfl

/-! ## Evaluating `get_centre` by cases on the argmax -/

/-- When the member farthest from the two-point centroid is the first member,
`get_centre` keeps the centroid. -/
lemma get_centre_argmax_zero (members : List ℕ) (coords : List Vec3)
    (seps : ℕ → ℕ → ℝ)
    (h : argmax (members.map (fun m =>
      sepVec (calc_centroid
        [coords.getD (members.getD 0 0) Vec3.zero,
         coords.getD (members.getD (members.length - 1) 0) Vec3.zero])
        (coords.getD m Vec3.zero))) = 0) :
    get_centre members coords seps = calc_centroid
      [coords.getD (members.getD 0 0) Vec3.zero,
       coords.getD (members.getD (members.length - 1) 0) Vec3.zero] := by
  simp only [get_centre]
  rw [h]
  simp

/-- When the member farthest from the two-point centroid is an interior one,
`get_centre` switches to the circumcentre of (first, farthest, last). -/
lemma get_centre_argmax_mid (members : List ℕ) (coords : List Vec3)
    (seps : ℕ → ℕ → ℝ) (k : ℕ)
    (h : argmax (members.map (fun m =>
      sepVec (calc_centroid
        [coords.getD (members.getD 0 0) Vec3.zero,
         coords.getD (members.getD (members.length - 1) 0) Vec3.zero])
        (coords.getD m Vec3.zero))) = k)
    (hk0 : k ≠ 0) (hkl : k ≠ members.length - 1) :
    get_centre members coords seps = calc_circumcentre
      [coords.getD (members.getD 0 0) Vec3.zero,
       coords.getD (members.getD k 0) Vec3.zero,
       coords.getD (members.getD (members.length - 1) 0) Vec3.zero] := by
  simp only [get_centre]
  rw [h, List.length_map]
  rw [if_pos ⟨hk0, hkl⟩]

/-- C6: on a two-member cluster, `get_centre` returns `calc_centroid` of the
two members — whose direction is the spherical midpoint (normalised vector
mean) — and the maximum member distance from it is half the members'
separation.  Stated for unit-vector, non-antipodal member coordinates
(the midpoint is undefined for antipodal members). -/
theorem C6_two_member (coords : List Vec3) (seps : ℕ → ℕ → ℝ) (i j : ℕ)
    (hu : (coords.getD i Vec3.zero).dot (coords.getD i Vec3.zero) = 1)
    (hv : (coords.getD j Vec3.zero).dot (coords.getD j Vec3.zero) = 1)
    (hc : -1 < (coords.getD i Vec3.zero).dot (coords.getD j Vec3.zero)) :
    twoMemberOK coords seps i j := by
  unfold twoMemberOK
  set u := coords.getD i Vec3.zero with hudef
  set v := coords.getD j Vec3.zero with hvdef
  have hd1 : sepVec (u.add v) u = sepVec u v / 2 := sep_mean_left u v hu hv hc
  have hd2 : sepVec (u.add v) v = sepVec u v / 2 := sep_mean_right u v hu hv hc
  have hmap : ([i, j].map (fun m =>
      sepVec (calc_centroid
        [coords.getD (([i, j] : List ℕ).getD 0 0) Vec3.zero,
         coords.getD (([i, j] : List ℕ).getD (([i, j] : List ℕ).length - 1) 0)
           Vec3.zero])
        (coords.getD m Vec3.zero))) = [sepVec u v / 2, sepVec u v / 2] := by
    show [sepVec (calc_centroid [u, v]) u, sepVec (calc_centroid [u, v]) v] = _
    rw [centroid_pair, hd1, hd2]
  have hcent0 := get_centre_argmax_zero [i, j] coords seps
    (by rw [hmap]; exact argmax_pair_self _)
  have hcent : get_centre [i, j] coords seps = calc_centroid [u, v] := hcent0
  refine ⟨hcent, ?_⟩
  rw [hcent]
  show listMax [sepVec (calc_centroid [u, v]) u,
    sepVec (calc_centroid [u, v]) v] = sepVec u v / 2
  rw [centroid_pair, hd1, hd2, listMax_pair_self]

/-- Witness for C6: the targets at (ra, dec) = (0°, 0°) and (90°, 0°). -/
theorem C6_two_member_witness :
    ((([unitVec 0 0, unitVec 90 0] : List Vec3).getD 0 Vec3.zero).dot
      (([unitVec 0 0, unitVec 90 0] : List Vec3).getD 0 Vec3.zero) = 1) ∧
    ((([unitVec 0 0, unitVec 90 0] : List Vec3).getD 1 Vec3.zero).dot
      (([unitVec 0 0, unitVec 90 0] : List Vec3).getD 1 Vec3.zero) = 1) ∧
    (-1 < (([unitVec 0 0, unitVec 90 0] : List Vec3).getD 0 Vec3.zero).dot
      (([unitVec 0 0, unitVec 90 0] : List Vec3).getD 1 Vec3.zero)) ∧
    twoMemberOK [unitVec 0 0, unitVec 90 0] (fun _ _ => 0) 0 1 := by
  have hA : unitVec 0 0 = ⟨1, 0, 0⟩ := by
    unfold unitVec
    rw [deg2rad_zero, Real.cos_zero, Real.sin_zero]
    ext <;> norm_num
  have hB : unitVec 90 0 = ⟨0, 1, 0⟩ := by
    unfold unitVec
    rw [deg2rad_zero, show deg2rad 90 = Real.pi / 2 from by unfold deg2rad; ring,
      Real.cos_zero, Real.sin_zero, Real.cos_pi_div_two, Real.sin_pi_div_two]
    ext <;> norm_num
  have h1 : (([unitVec 0 0, unitVec 90 0] : List Vec3).getD 0 Vec3.zero).dot
      (([unitVec 0 0, unitVec 90 0] : List Vec3).getD 0 Vec3.zero) = 1 := by
    show (unitVec 0 0).dot (unitVec 0 0) = 1
    rw [hA]; unfold Vec3.dot; norm_num
  have h2 : (([unitVec 0 0, unitVec 90 0] : List Vec3).getD 1 Vec3.zero).dot
      (([unitVec 0 0, unitVec 90 0] : List Vec3).getD 1 Vec3.zero) = 1 := by
    show (unitVec 90 0).dot (unitVec 90 0) = 1
    rw [hB]; unfold Vec3.dot; norm_num
  have h3 : -1 < (([unitVec 0 0, unitVec 90 0] : List Vec3).getD 0 Vec3.zero).dot
      (([unitVec 0 0, unitVec 90 0] : List Vec3).getD 1 Vec3.zero) := by
    show -1 < (unitVec 0 0).dot (unitVec 90 0)
    rw [hA, hB]; unfold Vec3.dot; norm_num
  exact ⟨h1, h2, h3, C6_two_member _ _ 0 1 h1 h2 h3⟩

/-! ## Claim theorems: the selector step and degenerate inputs -/

/-- C3: on a candidate cluster none of whose members is assigned, the
selector accepts iff the maximum member distance from the estimated centre
is strictly below `get_rad(num_members ** -0.5)`, and on acceptance marks
all members assigned and records the multiplier
`beam_fit(max_distance * 60) ** -2 / num_members`. -/
theorem C3_accept_iff (coords : List Vec3) (seps : ℕ → ℕ → ℝ) (st : SelState)
    (k : ℕ) (ms : List ℕ)
    (h : ms.any (fun m => st.assigned.contains m) = false) :
    stepSpec coords seps st k ms := by
  unfold stepSpec
  constructor
  · intro hlt
    simp only [selectStep, h, Bool.false_eq_true, if_false]
    rw [if_pos hlt]
  · intro hge
    simp only [selectStep, h, Bool.false_eq_true, if_false]
    rw [if_neg hge]

/-- Witness for C3: a single-member candidate on an empty assignment. -/
theorem C3_accept_iff_witness :
    (([0] : List ℕ).any (fun m =>
      (⟨[], [], none⟩ : SelState).assigned.contains m) = false) ∧
    stepSpec [] (fun _ _ => 0) ⟨[], [], none⟩ 0 [0] :=
  ⟨by decide, C3_accept_iff [] (fun _ _ => 0) ⟨[], [], none⟩ 0 [0] (by decide)⟩

/-- C8: on degenerate inputs the core does not raise an explicit
"insufficient targets" condition: with a single target the pipeline reaches
the singleton sweep and dies on the undefined loop variable `members`
(Python `NameError`, line 216), and with no targets it silently returns an
empty mapping. -/
theorem C8_no_insufficient_targets_check :
    pipeline [unitVec 0 0] = Except.error PyErr.nameErrorMembers ∧
    pipeline ([] : List Vec3) = Except.ok [] := by
  constructor <;> rfl

/-! ## Numeric evaluation helpers for the concrete scenarios -/

lemma abs_eval {x s : ℝ} (h : x = s ∨ x = -s) (hs : 0 ≤ s) : |x| = s := by
  rcases h with h | h
  · rw [h, abs_of_nonneg hs]
  · rw [h, abs_neg, abs_of_nonneg hs]

lemma round5_exact (x : ℝ) (q : ℤ) (h : x * 100000 = (q : ℝ)) :
    round5 x = (q : ℝ) / 100000 := by
  unfold round5
  rw [h, round_intCast]

/-- Evaluate one entry of the separation matrix for equatorial targets. -/
lemma calc_sep_eval (coords : List Vec3) (i j : ℕ) (a b s : ℝ) (q : ℤ)
    (hi : coords.getD i Vec3.zero = unitVec a 0)
    (hj : coords.getD j Vec3.zero = unitVec b 0)
    (habs : |a - b| = s) (h180 : s ≤ 180)
    (hq : s * 100000 = (q : ℝ)) (hqs : (q : ℝ) / 100000 = s) :
    calc_separation coords i j = s := by
  unfold calc_separation
  rw [hi, hj, sep_equator a b (by rw [habs]; exact h180), habs,
    round5_exact s q hq, hqs]

/-- Evaluate a separation from a two-point centroid for equatorial targets. -/
lemma sep_centroid_eval (a b c w v : ℝ) (hw : |a - b| = w) (h1 : w < 180)
    (h2 : |(a + b) / 2 - c| = v) (h3 : v ≤ 180) :
    sepVec (calc_centroid [unitVec a 0, unitVec b 0]) (unitVec c 0) = v := by
  rw [sep_centroid_equator a b c (by rw [hw]; exact h1)
    (by rw [h2]; exact h3), h2]

/-! Separation-matrix entries of the 4-target scenario. -/

lemma s4_01 : calc_separation coords4 0 1 = 0.01 :=
  calc_sep_eval coords4 0 1 0 0.01 0.01 1000 rfl rfl
    (abs_eval (Or.inr (by norm_num)) (by norm_num)) (by norm_num)
    (by norm_num) (by norm_num)

lemma s4_02 : calc_separation coords4 0 2 = 5 :=
  calc_sep_eval coords4 0 2 0 5 5 500000 rfl rfl
    (abs_eval (Or.inr (by norm_num)) (by norm_num)) (by norm_num)
    (by norm_num) (by norm_num)

lemma s4_03 : calc_separation coords4 0 3 = 5.01 :=
  calc_sep_eval coords4 0 3 0 5.01 5.01 501000 rfl rfl
    (abs_eval (Or.inr (by norm_num)) (by norm_num)) (by norm_num)
    (by norm_num) (by norm_num)

lemma s4_12 : calc_separation coords4 1 2 = 4.99 :=
  calc_sep_eval coords4 1 2 0.01 5 4.99 499000 rfl rfl
    (abs_eval (Or.inr (by norm_num)) (by norm_num)) (by norm_num)
    (by norm_num) (by norm_num)

lemma s4_13 : calc_separation coords4 1 3 = 5 :=
  calc_sep_eval coords4 1 3 0.01 5.01 5 500000 rfl rfl
    (abs_eval (Or.inr (by norm_num)) (by norm_num)) (by norm_num)
    (by norm_num) (by norm_num)

lemma s4_23 : calc_separation coords4 2 3 = 0.01 :=
  calc_sep_eval coords4 2 3 5 5.01 0.01 1000 rfl rfl
    (abs_eval (Or.inr (by norm_num)) (by norm_num)) (by norm_num)
    (by norm_num) (by norm_num)

lemma s4_20 : calc_separation coords4 2 0 = 5 :=
  calc_sep_eval coords4 2 0 5 0 5 500000 rfl rfl
    (abs_eval (Or.inl (by norm_num)) (by norm_num)) (by norm_num)
    (by norm_num) (by norm_num)

lemma s4_21 : calc_separation coords4 2 1 = 4.99 :=
  calc_sep_eval coords4 2 1 5 0.01 4.99 499000 rfl rfl
    (abs_eval (Or.inl (by norm_num)) (by norm_num)) (by norm_num)
    (by norm_num) (by norm_num)

lemma s4_30 : calc_separation coords4 3 0 = 5.01 :=
  calc_sep_eval coords4 3 0 5.01 0 5.01 501000 rfl rfl
    (abs_eval (Or.inl (by norm_num)) (by norm_num)) (by norm_num)
    (by norm_num) (by norm_num)

lemma s4_31 : calc_separation coords4 3 1 = 5 :=
  calc_sep_eval coords4 3 1 5.01 0.01 5 500000 rfl rfl
    (abs_eval (Or.inl (by norm_num)) (by norm_num)) (by norm_num)
    (by norm_num) (by norm_num)

/-! Separation-matrix entries of the 3-target scenario. -/

lemma s3_01 : calc_separation coords3 0 1 = 0.01 :=
  calc_sep_eval coords3 0 1 0.01 0 0.01 1000 rfl rfl
    (abs_eval (Or.inl (by norm_num)) (by norm_num)) (by norm_num)
    (by norm_num) (by norm_num)

lemma s3_02 : calc_separation coords3 0 2 = 49.99 :=
  calc_sep_eval coords3 0 2 0.01 50 49.99 4999000 rfl rfl
    (abs_eval (Or.inr (by norm_num)) (by norm_num)) (by norm_num)
    (by norm_num) (by norm_num)

lemma s3_12 : calc_separation coords3 1 2 = 50 :=
  calc_sep_eval coords3 1 2 0 50 50 5000000 rfl rfl
    (abs_eval (Or.inr (by norm_num)) (by norm_num)) (by norm_num)
    (by norm_num) (by norm_num)

lemma s3_20 : calc_separation coords3 2 0 = 49.99 :=
  calc_sep_eval coords3 2 0 50 0.01 49.99 4999000 rfl rfl
    (abs_eval (Or.inl (by norm_num)) (by norm_num)) (by norm_num)
    (by norm_num) (by norm_num)

lemma s3_21 : calc_separation coords3 2 1 = 50 :=
  calc_sep_eval coords3 2 1 50 0 50 5000000 rfl rfl
    (abs_eval (Or.inl (by norm_num)) (by norm_num)) (by norm_num)
    (by norm_num) (by norm_num)

/-! ## Break-even radii and multiplier bounds -/

lemma log2_pos : (0 : ℝ) < Real.log 2 := Real.log_pos (by norm_num)

lemma four_rpow_neg_half : (4 : ℝ) ^ (-(1 / 2) : ℝ) = 1 / 2 := by
  have h4 : (4 : ℝ) ^ ((1 / 2) : ℝ) = 2 := by
    rw [show (4 : ℝ) = (2 : ℝ) ^ (2 : ℕ) by norm_num,
      show ((1 : ℝ) / 2) = (((2 : ℕ) : ℝ))⁻¹ by norm_num]
    exact Real.pow_rpow_inv_natCast (by norm_num) (by norm_num)
  rw [show (-(1 / 2) : ℝ) = -((1 / 2) : ℝ) by norm_num,
    Real.rpow_neg (by norm_num), h4]
  norm_num

lemma get_rad_half : get_rad (1 / 2) = 0.5 * 48.3 / 5.5 / 60 := by
  unfold get_rad
  rw [show (1 / 2 : ℝ) = 2⁻¹ by norm_num, Real.log_inv, neg_neg,
    div_self (ne_of_gt log2_pos), Real.sqrt_one]
  norm_num

lemma breakeven4_lt_one : get_rad ((4 : ℝ) ^ (-(1 / 2) : ℝ)) < 1 := by
  rw [four_rpow_neg_half, get_rad_half]; norm_num

lemma get_rad_two : get_rad ((2 : ℝ) ^ (-(1 / 2) : ℝ)) =
    0.5 * 48.3 * Real.sqrt (1 / 2) / 5.5 / 60 := by
  unfold get_rad
  rw [Real.log_rpow (by norm_num),
    show -(-(1 / 2) * Real.log 2) / Real.log 2 =
      1 / 2 * (Real.log 2 / Real.log 2) by ring,
    div_self (ne_of_gt log2_pos), mul_one]

lemma breakeven2_gt : (0.005 : ℝ) < get_rad ((2 : ℝ) ^ (-(1 / 2) : ℝ)) := by
  rw [get_rad_two]
  have h7 : (0.7 : ℝ) < Real.sqrt (1 / 2) := by
    apply (Real.lt_sqrt (by norm_num)).mpr
    norm_num
  have hX : (0.5 * 48.3 * Real.sqrt (1 / 2) / 5.5 / 60 : ℝ) * 660 =
      48.3 * Real.sqrt (1 / 2) := by ring
  linarith [hX, h7]

lemma breakeven2_lt_one : get_rad ((2 : ℝ) ^ (-(1 / 2) : ℝ)) < 1 := by
  rw [get_rad_two]
  have h1 : Real.sqrt (1 / 2) ≤ 1 := by
    rw [show (1 : ℝ) = Real.sqrt 1 by rw [Real.sqrt_one]]
    exact Real.sqrt_le_sqrt (by norm_num)
  have hX : (0.5 * 48.3 * Real.sqrt (1 / 2) / 5.5 / 60 : ℝ) * 660 =
      48.3 * Real.sqrt (1 / 2) := by ring
  linarith [hX, h1]

lemma breakeven3_lt_one : get_rad ((3 : ℝ) ^ (-(1 / 2) : ℝ)) < 1 := by
  unfold get_rad
  rw [Real.log_rpow (by norm_num)]
  have hlog3 : Real.log 3 ≤ 2 :=
    le_trans (Real.log_le_sub_one_of_pos (by norm_num)) (by norm_num)
  have hlog3nn : 0 ≤ Real.log 3 := Real.log_nonneg (by norm_num)
  have hratio : -(-(1 / 2) * Real.log 3) / Real.log 2 < 1.69 := by
    rw [show -(-(1 / 2) * Real.log 3) = Real.log 3 / 2 by ring, div_div,
      div_lt_iff₀ (by positivity)]
    nlinarith [Real.log_two_gt_d9]
  have hs : Real.sqrt (-(-(1 / 2) * Real.log 3) / Real.log 2) < 1.3 := by
    apply (Real.sqrt_lt' (by norm_num)).mpr
    nlinarith [hratio]
  have hsnn : 0 ≤ Real.sqrt (-(-(1 / 2) * Real.log 3) / Real.log 2) :=
    Real.sqrt_nonneg _
  have hX : (0.5 * 48.3 * Real.sqrt (-(-(1 / 2) * Real.log 3) / Real.log 2) /
      5.5 / 60 : ℝ) * 660 =
      48.3 * Real.sqrt (-(-(1 / 2) * Real.log 3) / Real.log 2) := by ring
  linarith [hX, hs, hsnn]

lemma beam_fit_03 : beam_fit (0.3 : ℝ) =
    Real.exp (-4 * Real.log 2 * (0.3 * 5.5 / 48.3) ^ 2) := rfl

lemma relInt2_eq : relInt2 =
    Real.exp (8 * Real.log 2 * (0.3 * 5.5 / 48.3) ^ 2) / 2 := by
  unfold relInt2
  rw [beam_fit_03, Real.rpow_def_of_pos (Real.exp_pos _), Real.log_exp]
  congr 2
  ring

lemma relInt2_gt_half : 1 / 2 < relInt2 := by
  rw [relInt2_eq]
  have h1 : (1 : ℝ) < Real.exp (8 * Real.log 2 * (0.3 * 5.5 / 48.3) ^ 2) := by
    rw [show (1 : ℝ) = Real.exp 0 by rw [Real.exp_zero]]
    apply Real.exp_lt_exp.mpr
    positivity
  linarith

lemma relInt2_lt_one : relInt2 < 1 := by
  rw [relInt2_eq]
  have harg : 8 * Real.log 2 * (0.3 * 5.5 / 48.3) ^ 2 < Real.log 2 := by
    have hq : (8 : ℝ) * (0.3 * 5.5 / 48.3) ^ 2 < 1 := by norm_num
    nlinarith [log2_pos, hq]
  have h2 : Real.exp (8 * Real.log 2 * (0.3 * 5.5 / 48.3) ^ 2) < 2 :=
    calc Real.exp (8 * Real.log 2 * (0.3 * 5.5 / 48.3) ^ 2)
        < Real.exp (Real.log 2) := Real.exp_lt_exp.mpr harg
      _ = 2 := Real.exp_log (by norm_num)
  linarith

/-! ## Evaluating one selector step -/

lemma selectStep_skip (coords : List Vec3) (seps : ℕ → ℕ → ℝ) (st : SelState)
    (k : ℕ) (ms : List ℕ)
    (h : ms.any (fun m => st.assigned.contains m) = true) :
    selectStep coords seps st (k, ms) = { st with lastMembers := some ms } := by
  simp only [selectStep, h, if_true]

lemma selectStep_accept (coords : List Vec3) (seps : ℕ → ℕ → ℝ) (st : SelState)
    (k : ℕ) (ms : List ℕ)
    (h : ms.any (fun m => st.assigned.contains m) = false)
    (hlt : listMax (ms.map (fun m =>
        sepVec (get_centre ms coords seps) (coords.getD m Vec3.zero))) <
      get_rad ((ms.length : ℝ) ^ (-(1 / 2) : ℝ))) :
    selectStep coords seps st (k, ms) =
      ⟨st.assigned ++ ms,
       st.info ++ [(k, ⟨ms, [get_centre ms coords seps],
         beam_fit (listMax (ms.map (fun m =>
           sepVec (get_centre ms coords seps) (coords.getD m Vec3.zero))) * 60) ^
             (-2 : ℝ) / (ms.length : ℝ)⟩)],
       some ms⟩ := by
  simp only [selectStep, h, Bool.false_eq_true, if_false]
  rw [if_pos hlt]

lemma selectStep_reject (coords : List Vec3) (seps : ℕ → ℕ → ℝ) (st : SelState)
    (k : ℕ) (ms : List ℕ)
    (h : ms.any (fun m => st.assigned.contains m) = false)
    (hge : ¬ listMax (ms.map (fun m =>
        sepVec (get_centre ms coords seps) (coords.getD m Vec3.zero))) <
      get_rad ((ms.length : ℝ) ^ (-(1 / 2) : ℝ))) :
    selectStep coords seps st (k, ms) = { st with lastMembers := some ms } := by
  simp only [selectStep, h, Bool.false_eq_true, if_false]
  rw [if_neg hge]

/-! ## Concrete centre and distance evaluations -/

lemma argmax4_first : argmax [(2.505 : ℝ), 2.495, 2.495, 2.505] = 0 := by
  norm_num [argmax, argmaxAux]

lemma argmax3_first : argmax [(25 : ℝ), 24.99, 25] = 0 := by
  norm_num [argmax, argmaxAux]

lemma listMax4_eval : listMax [(2.505 : ℝ), 2.495, 2.495, 2.505] = 2.505 := by
  unfold listMax
  simp only [List.foldl, max_def]
  norm_num

lemma listMax3_eval : listMax [(25 : ℝ), 24.99, 25] = 25 := by
  unfold listMax
  simp only [List.foldl, max_def]
  norm_num

lemma map6_eval : ([0, 1, 2, 3] : List ℕ).map (fun m =>
    sepVec (calc_centroid [unitVec 0 0, unitVec 5.01 0])
      (coords4.getD m Vec3.zero)) = [(2.505 : ℝ), 2.495, 2.495, 2.505] := by
  show [sepVec (calc_centroid [unitVec 0 0, unitVec 5.01 0]) (unitVec 0 0),
    sepVec (calc_centroid [unitVec 0 0, unitVec 5.01 0]) (unitVec 0.01 0),
    sepVec (calc_centroid [unitVec 0 0, unitVec 5.01 0]) (unitVec 5 0),
    sepVec (calc_centroid [unitVec 0 0, unitVec 5.01 0]) (unitVec 5.01 0)] = _
  rw [sep_centroid_eval 0 5.01 0 5.01 2.505
      (abs_eval (Or.inr (by norm_num)) (by norm_num)) (by norm_num)
      (abs_eval (Or.inl (by norm_num)) (by norm_num)) (by norm_num),
    sep_centroid_eval 0 5.01 0.01 5.01 2.495
      (abs_eval (Or.inr (by norm_num)) (by norm_num)) (by norm_num)
      (abs_eval (Or.inl (by norm_num)) (by norm_num)) (by norm_num),
    sep_centroid_eval 0 5.01 5 5.01 2.495
      (abs_eval (Or.inr (by norm_num)) (by norm_num)) (by norm_num)
      (abs_eval (Or.inr (by norm_num)) (by norm_num)) (by norm_num),
    sep_centroid_eval 0 5.01 5.01 5.01 2.505
      (abs_eval (Or.inr (by norm_num)) (by norm_num)) (by norm_num)
      (abs_eval (Or.inr (by norm_num)) (by norm_num)) (by norm_num)]

lemma map5_eval : ([2, 3] : List ℕ).map (fun m =>
    sepVec (calc_centroid [unitVec 5 0, unitVec 5.01 0])
      (coords4.getD m Vec3.zero)) = [(0.005 : ℝ), 0.005] := by
  show [sepVec (calc_centroid [unitVec 5 0, unitVec 5.01 0]) (unitVec 5 0),
    sepVec (calc_centroid [unitVec 5 0, unitVec 5.01 0]) (unitVec 5.01 0)] = _
  rw [sep_centroid_eval 5 5.01 5 0.01 0.005
      (abs_eval (Or.inr (by norm_num)) (by norm_num)) (by norm_num)
      (abs_eval (Or.inl (by norm_num)) (by norm_num)) (by norm_num),
    sep_centroid_eval 5 5.01 5.01 0.01 0.005
      (abs_eval (Or.inr (by norm_num)) (by norm_num)) (by norm_num)
      (abs_eval (Or.inr (by norm_num)) (by norm_num)) (by norm_num)]

lemma map4_eval : ([0, 1] : List ℕ).map (fun m =>
    sepVec (calc_centroid [unitVec 0 0, unitVec 0.01 0])
      (coords4.getD m Vec3.zero)) = [(0.005 : ℝ), 0.005] := by
  show [sepVec (calc_centroid [unitVec 0 0, unitVec 0.01 0]) (unitVec 0 0),
    sepVec (calc_centroid [unitVec 0 0, unitVec 0.01 0]) (unitVec 0.01 0)] = _
  rw [sep_centroid_eval 0 0.01 0 0.01 0.005
      (abs_eval (Or.inr (by norm_num)) (by norm_num)) (by norm_num)
      (abs_eval (Or.inl (by norm_num)) (by norm_num)) (by norm_num),
    sep_centroid_eval 0 0.01 0.01 0.01 0.005
      (abs_eval (Or.inr (by norm_num)) (by norm_num)) (by norm_num)
      (abs_eval (Or.inr (by norm_num)) (by norm_num)) (by norm_num)]

lemma map34_eval : ([2, 0, 1] : List ℕ).map (fun m =>
    sepVec (calc_centroid [unitVec 50 0, unitVec 0 0])
      (coords3.getD m Vec3.zero)) = [(25 : ℝ), 24.99, 25] := by
  show [sepVec (calc_centroid [unitVec 50 0, unitVec 0 0]) (unitVec 50 0),
    sepVec (calc_centroid [unitVec 50 0, unitVec 0 0]) (unitVec 0.01 0),
    sepVec (calc_centroid [unitVec 50 0, unitVec 0 0]) (unitVec 0 0)] = _
  rw [sep_centroid_eval 50 0 50 50 25
      (abs_eval (Or.inl (by norm_num)) (by norm_num)) (by norm_num)
      (abs_eval (Or.inr (by norm_num)) (by norm_num)) (by norm_num),
    sep_centroid_eval 50 0 0.01 50 24.99
      (abs_eval (Or.inl (by norm_num)) (by norm_num)) (by norm_num)
      (abs_eval (Or.inl (by norm_num)) (by norm_num)) (by norm_num),
    sep_centroid_eval 50 0 0 50 25
      (abs_eval (Or.inl (by norm_num)) (by norm_num)) (by norm_num)
      (abs_eval (Or.inl (by norm_num)) (by norm_num)) (by norm_num)]

lemma map33_eval : ([0, 1] : List ℕ).map (fun m =>
    sepVec (calc_centroid [unitVec 0.01 0, unitVec 0 0])
      (coords3.getD m Vec3.zero)) = [(0.005 : ℝ), 0.005] := by
  show [sepVec (calc_centroid [unitVec 0.01 0, unitVec 0 0]) (unitVec 0.01 0),
    sepVec (calc_centroid [unitVec 0.01 0, unitVec 0 0]) (unitVec 0 0)] = _
  rw [sep_centroid_eval 0.01 0 0.01 0.01 0.005
      (abs_eval (Or.inl (by norm_num)) (by norm_num)) (by norm_num)
      (abs_eval (Or.inr (by norm_num)) (by norm_num)) (by norm_num),
    sep_centroid_eval 0.01 0 0 0.01 0.005
      (abs_eval (Or.inl (by norm_num)) (by norm_num)) (by norm_num)
      (abs_eval (Or.inl (by norm_num)) (by norm_num)) (by norm_num)]

lemma centre6_eval : get_centre [0, 1, 2, 3] coords4 (calc_separation coords4) =
    calc_centroid [unitVec 0 0, unitVec 5.01 0] := by
  have h := get_centre_argmax_zero [0, 1, 2, 3] coords4 (calc_separation coords4)
    (by show argmax (([0, 1, 2, 3] : List ℕ).map (fun m =>
          sepVec (calc_centroid [unitVec 0 0, unitVec 5.01 0])
            (coords4.getD m Vec3.zero))) = 0
        rw [map6_eval]
        exact argmax4_first)
  exact h

lemma centre5_eval : get_centre [2, 3] coords4 (calc_separation coords4) =
    calc_centroid [unitVec 5 0, unitVec 5.01 0] := by
  have h := get_centre_argmax_zero [2, 3] coords4 (calc_separation coords4)
    (by show argmax (([2, 3] : List ℕ).map (fun m =>
          sepVec (calc_centroid [unitVec 5 0, unitVec 5.01 0])
            (coords4.getD m Vec3.zero))) = 0
        rw [map5_eval]
        exact argmax_pair_self _)
  exact h

lemma centre4_eval : get_centre [0, 1] coords4 (calc_separation coords4) =
    calc_centroid [unitVec 0 0, unitVec 0.01 0] := by
  have h := get_centre_argmax_zero [0, 1] coords4 (calc_separation coords4)
    (by show argmax (([0, 1] : List ℕ).map (fun m =>
          sepVec (calc_centroid [unitVec 0 0, unitVec 0.01 0])
            (coords4.getD m Vec3.zero))) = 0
        rw [map4_eval]
        exact argmax_pair_self _)
  exact h

lemma centre34_eval : get_centre [2, 0, 1] coords3 (calc_separation coords3) =
    calc_centroid [unitVec 50 0, unitVec 0 0] := by
  have h := get_centre_argmax_zero [2, 0, 1] coords3 (calc_separation coords3)
    (by show argmax (([2, 0, 1] : List ℕ).map (fun m =>
          sepVec (calc_centroid [unitVec 50 0, unitVec 0 0])
            (coords3.getD m Vec3.zero))) = 0
        rw [map34_eval]
        exact argmax3_first)
  exact h

lemma centre33_eval : get_centre [0, 1] coords3 (calc_separation coords3) =
    calc_centroid [unitVec 0.01 0, unitVec 0 0] := by
  have h := get_centre_argmax_zero [0, 1] coords3 (calc_separation coords3)
    (by show argmax (([0, 1] : List ℕ).map (fun m =>
          sepVec (calc_centroid [unitVec 0.01 0, unitVec 0 0])
            (coords3.getD m Vec3.zero))) = 0
        rw [map33_eval]
        exact argmax_pair_self _)
  exact h

/-! ## Linkage evaluation on the 4-target scenario -/

lemma bp4_1 : bestPair (stepDist (calc_separation coords4)
    [(0, [0]), (1, [1]), (2, [2]), (3, [3])])
    ([(0, [0]), (1, [1]), (2, [2]), (3, [3])] : List (ℕ × List ℕ)).length
    = (0, 1) := by
  show selectMin (stepDist (calc_separation coords4)
    [(0, [0]), (1, [1]), (2, [2]), (3, [3])])
    [(0, 2), (0, 3), (1, 2), (1, 3), (2, 3)] (0, 1) = (0, 1)
  have e01 : stepDist (calc_separation coords4)
      [(0, [0]), (1, [1]), (2, [2]), (3, [3])] (0, 1) = 0.01 := s4_01
  have e02 : stepDist (calc_separation coords4)
      [(0, [0]), (1, [1]), (2, [2]), (3, [3])] (0, 2) = 5 := s4_02
  have e03 : stepDist (calc_separation coords4)
      [(0, [0]), (1, [1]), (2, [2]), (3, [3])] (0, 3) = 5.01 := s4_03
  have e12 : stepDist (calc_separation coords4)
      [(0, [0]), (1, [1]), (2, [2]), (3, [3])] (1, 2) = 4.99 := s4_12
  have e13 : stepDist (calc_separation coords4)
      [(0, [0]), (1, [1]), (2, [2]), (3, [3])] (1, 3) = 5 := s4_13
  have e23 : stepDist (calc_separation coords4)
      [(0, [0]), (1, [1]), (2, [2]), (3, [3])] (2, 3) = 0.01 := s4_23
  norm_num [selectMin, e01, e02, e03, e12, e13, e23]

lemma bp4_2 : bestPair (stepDist (calc_separation coords4)
    [(2, [2]), (3, [3]), (4, [0, 1])])
    ([(2, [2]), (3, [3]), (4, [0, 1])] : List (ℕ × List ℕ)).length
    = (0, 1) := by
  show selectMin (stepDist (calc_separation coords4)
    [(2, [2]), (3, [3]), (4, [0, 1])]) [(0, 2), (1, 2)] (0, 1) = (0, 1)
  have e01 : stepDist (calc_separation coords4)
      [(2, [2]), (3, [3]), (4, [0, 1])] (0, 1) = 0.01 := s4_23
  have e02 : stepDist (calc_separation coords4)
      [(2, [2]), (3, [3]), (4, [0, 1])] (0, 2) = 5 := by
    show max (calc_separation coords4 2 0) (calc_separation coords4 2 1) = 5
    rw [s4_20, s4_21]
    norm_num [max_def]
  have e12 : stepDist (calc_separation coords4)
      [(2, [2]), (3, [3]), (4, [0, 1])] (1, 2) = 5.01 := by
    show max (calc_separation coords4 3 0) (calc_separation coords4 3 1) = 5.01
    rw [s4_30, s4_31]
    norm_num [max_def]
  norm_num [selectMin, e01, e02, e12]

lemma bp4_3 : bestPair (stepDist (calc_separation coords4)
    [(4, [0, 1]), (5, [2, 3])])
    ([(4, [0, 1]), (5, [2, 3])] : List (ℕ × List ℕ)).length = (0, 1) := rfl

lemma sd4_3 : stepDist (calc_separation coords4)
    [(4, [0, 1]), (5, [2, 3])] (0, 1) = 5.01 := by
  show max (max (max (calc_separation coords4 0 2) (calc_separation coords4 0 3))
    (calc_separation coords4 1 2)) (calc_separation coords4 1 3) = 5.01
  rw [s4_02, s4_03, s4_12, s4_13]
  norm_num [max_def]

lemma link4_s1 : linkStep (calc_separation coords4)
    ⟨[(0, [0]), (1, [1]), (2, [2]), (3, [3])], [], 4⟩ =
    ⟨[(2, [2]), (3, [3]), (4, [0, 1])], [⟨0, 1, 0.01, 2⟩], 5⟩ := by
  have e01 : stepDist (calc_separation coords4)
      [(0, [0]), (1, [1]), (2, [2]), (3, [3])] (0, 1) = 0.01 := s4_01
  simp only [linkStep]
  rw [if_pos (by norm_num :
    2 ≤ ([(0, [0]), (1, [1]), (2, [2]), (3, [3])] : List (ℕ × List ℕ)).length)]
  rw [bp4_1]
  simp [List.eraseIdx, e01]

lemma link4_s2 : linkStep (calc_separation coords4)
    ⟨[(2, [2]), (3, [3]), (4, [0, 1])], [⟨0, 1, 0.01, 2⟩], 5⟩ =
    ⟨[(4, [0, 1]), (5, [2, 3])], [⟨0, 1, 0.01, 2⟩, ⟨2, 3, 0.01, 2⟩], 6⟩ := by
  have e01 : stepDist (calc_separation coords4)
      [(2, [2]), (3, [3]), (4, [0, 1])] (0, 1) = 0.01 := s4_23
  simp only [linkStep]
  rw [if_pos (by norm_num :
    2 ≤ ([(2, [2]), (3, [3]), (4, [0, 1])] : List (ℕ × List ℕ)).length)]
  rw [bp4_2]
  simp [List.eraseIdx, e01]

lemma link4_s3 : linkStep (calc_separation coords4)
    ⟨[(4, [0, 1]), (5, [2, 3])], [⟨0, 1, 0.01, 2⟩, ⟨2, 3, 0.01, 2⟩], 6⟩ =
    ⟨[(6, [0, 1, 2, 3])],
     [⟨0, 1, 0.01, 2⟩, ⟨2, 3, 0.01, 2⟩, ⟨4, 5, 5.01, 4⟩], 7⟩ := by
  simp only [linkStep]
  rw [if_pos (by norm_num :
    2 ≤ ([(4, [0, 1]), (5, [2, 3])] : List (ℕ × List ℕ)).length)]
  rw [bp4_3]
  simp [List.eraseIdx, sd4_3]

lemma linkage4_eval : linkage (calc_separation coords4) 4 =
    [⟨0, 1, 0.01, 2⟩, ⟨2, 3, 0.01, 2⟩, ⟨4, 5, 5.01, 4⟩] := by
  show (iterN (linkStep (calc_separation coords4)) 3
    ⟨[(0, [0]), (1, [1]), (2, [2]), (3, [3])], [], 4⟩).rows = _
  rw [show (3 : ℕ) = 2 + 1 from rfl, iterN, link4_s1,
    show (2 : ℕ) = 1 + 1 from rfl, iterN, link4_s2,
    show (1 : ℕ) = 0 + 1 from rfl, iterN, link4_s3, iterN]

/-! ## Selector evaluation on the 4-target scenario -/

lemma sel6_eval : selectStep coords4 (calc_separation coords4) ⟨[], [], none⟩
    (6, [0, 1, 2, 3]) = ⟨[], [], some [0, 1, 2, 3]⟩ := by
  have hge : ¬ listMax (([0, 1, 2, 3] : List ℕ).map (fun m =>
      sepVec (get_centre [0, 1, 2, 3] coords4 (calc_separation coords4))
        (coords4.getD m Vec3.zero))) <
      get_rad ((([0, 1, 2, 3] : List ℕ).length : ℝ) ^ (-(1 / 2) : ℝ)) := by
    rw [centre6_eval, map6_eval, listMax4_eval,
      show ((([0, 1, 2, 3] : List ℕ).length : ℕ) : ℝ) = (4 : ℝ) by simp]
    intro hlt
    linarith [breakeven4_lt_one]
  exact selectStep_reject coords4 (calc_separation coords4) ⟨[], [], none⟩ 6
    [0, 1, 2, 3] rfl hge

lemma sel5_eval : selectStep coords4 (calc_separation coords4)
    ⟨[], [], some [0, 1, 2, 3]⟩ (5, [2, 3]) =
    ⟨[2, 3], [(5, ⟨[2, 3], [calc_centroid [unitVec 5 0, unitVec 5.01 0]],
      relInt2⟩)], some [2, 3]⟩ := by
  have hlt : listMax (([2, 3] : List ℕ).map (fun m =>
      sepVec (get_centre [2, 3] coords4 (calc_separation coords4))
        (coords4.getD m Vec3.zero))) <
      get_rad ((([2, 3] : List ℕ).length : ℝ) ^ (-(1 / 2) : ℝ)) := by
    rw [centre5_eval, map5_eval, listMax_pair_self,
      show ((([2, 3] : List ℕ).length : ℕ) : ℝ) = (2 : ℝ) by simp]
    exact breakeven2_gt
  rw [selectStep_accept coords4 (calc_separation coords4) ⟨[], [], some [0, 1, 2, 3]⟩
    5 [2, 3] rfl hlt]
  rw [centre5_eval, map5_eval, listMax_pair_self]
  norm_num [relInt2]

lemma sel4_eval : selectStep coords4 (calc_separation coords4)
    ⟨[2, 3], [(5, ⟨[2, 3], [calc_centroid [unitVec 5 0, unitVec 5.01 0]],
      relInt2⟩)], some [2, 3]⟩ (4, [0, 1]) =
    ⟨[2, 3, 0, 1],
     [(5, ⟨[2, 3], [calc_centroid [unitVec 5 0, unitVec 5.01 0]], relInt2⟩),
      (4, ⟨[0, 1], [calc_centroid [unitVec 0 0, unitVec 0.01 0]], relInt2⟩)],
     some [0, 1]⟩ := by
  have hlt : listMax (([0, 1] : List ℕ).map (fun m =>
      sepVec (get_centre [0, 1] coords4 (calc_separation coords4))
        (coords4.getD m Vec3.zero))) <
      get_rad ((([0, 1] : List ℕ).length : ℝ) ^ (-(1 / 2) : ℝ)) := by
    rw [centre4_eval, map4_eval, listMax_pair_self,
      show ((([0, 1] : List ℕ).length : ℕ) : ℝ) = (2 : ℝ) by simp]
    exact breakeven2_gt
  rw [selectStep_accept coords4 (calc_separation coords4)
    ⟨[2, 3], [(5, ⟨[2, 3], [calc_centroid [unitVec 5 0, unitVec 5.01 0]],
      relInt2⟩)], some [2, 3]⟩ 4 [0, 1] rfl hlt]
  rw [centre4_eval, map4_eval, listMax_pair_self]
  norm_num [relInt2]

lemma do_clustering4_eval : do_clustering coords4
    [(4, [0, 1]), (5, [2, 3]), (6, [0, 1, 2, 3])] (calc_separation coords4) =
    Except.ok
      [(5, ⟨[2, 3], [calc_centroid [unitVec 5 0, unitVec 5.01 0]], relInt2⟩),
       (4, ⟨[0, 1], [calc_centroid [unitVec 0 0, unitVec 0.01 0]], relInt2⟩)] := by
  simp only [do_clustering]
  rw [show sortDesc [(4, [0, 1]), (5, [2, 3]), (6, [0, 1, 2, 3])] =
    [(6, [0, 1, 2, 3]), (5, [2, 3]), (4, [0, 1])] from rfl]
  rw [List.foldl_cons, sel6_eval, List.foldl_cons, sel5_eval,
    List.foldl_cons, sel4_eval, List.foldl_nil]
  rfl

lemma pipeline4_eval : pipeline coords4 =
    Except.ok
      [(5, ⟨[2, 3], [calc_centroid [unitVec 5 0, unitVec 5.01 0]], relInt2⟩),
       (4, ⟨[0, 1], [calc_centroid [unitVec 0 0, unitVec 0.01 0]], relInt2⟩)] := by
  simp only [pipeline]
  rw [show coords4.length = 4 from rfl, linkage4_eval,
    show extract_levels [⟨0, 1, 0.01, 2⟩, ⟨2, 3, 0.01, 2⟩, ⟨4, 5, 5.01, 4⟩]
      (List.range 4) = [(4, [0, 1]), (5, [2, 3]), (6, [0, 1, 2, 3])] from rfl]
  exact do_clustering4_eval

lemma outRecords4_eval : outRecords4 =
    [(5, ⟨[2, 3], [calc_centroid [unitVec 5 0, unitVec 5.01 0]], relInt2⟩),
     (4, ⟨[0, 1], [calc_centroid [unitVec 0 0, unitVec 0.01 0]], relInt2⟩)] := by
  unfold outRecords4
  rw [pipeline4_eval]

/-! ## Pipeline evaluation on the 3-target scenario -/

lemma bp3_1 : bestPair (stepDist (calc_separation coords3)
    [(0, [0]), (1, [1]), (2, [2])])
    ([(0, [0]), (1, [1]), (2, [2])] : List (ℕ × List ℕ)).length = (0, 1) := by
  show selectMin (stepDist (calc_separation coords3)
    [(0, [0]), (1, [1]), (2, [2])]) [(0, 2), (1, 2)] (0, 1) = (0, 1)
  have e01 : stepDist (calc_separation coords3)
      [(0, [0]), (1, [1]), (2, [2])] (0, 1) = 0.01 := s3_01
  have e02 : stepDist (calc_separation coords3)
      [(0, [0]), (1, [1]), (2, [2])] (0, 2) = 49.99 := s3_02
  have e12 : stepDist (calc_separation coords3)
      [(0, [0]), (1, [1]), (2, [2])] (1, 2) = 50 := s3_12
  norm_num [selectMin, e01, e02, e12]

lemma sd3_2 : stepDist (calc_separation coords3)
    [(2, [2]), (3, [0, 1])] (0, 1) = 50 := by
  show max (calc_separation coords3 2 0) (calc_separation coords3 2 1) = 50
  rw [s3_20, s3_21]
  norm_num [max_def]

lemma link3_s1 : linkStep (calc_separation coords3)
    ⟨[(0, [0]), (1, [1]), (2, [2])], [], 3⟩ =
    ⟨[(2, [2]), (3, [0, 1])], [⟨0, 1, 0.01, 2⟩], 4⟩ := by
  have e01 : stepDist (calc_separation coords3)
      [(0, [0]), (1, [1]), (2, [2])] (0, 1) = 0.01 := s3_01
  simp only [linkStep]
  rw [if_pos (by norm_num :
    2 ≤ ([(0, [0]), (1, [1]), (2, [2])] : List (ℕ × List ℕ)).length)]
  rw [bp3_1]
  simp [List.eraseIdx, e01]

lemma link3_s2 : linkStep (calc_separation coords3)
    ⟨[(2, [2]), (3, [0, 1])], [⟨0, 1, 0.01, 2⟩], 4⟩ =
    ⟨[(4, [2, 0, 1])], [⟨0, 1, 0.01, 2⟩, ⟨2, 3, 50, 3⟩], 5⟩ := by
  simp only [linkStep]
  rw [if_pos (by norm_num :
    2 ≤ ([(2, [2]), (3, [0, 1])] : List (ℕ × List ℕ)).length)]
  rw [show bestPair (stepDist (calc_separation coords3)
    [(2, [2]), (3, [0, 1])])
    ([(2, [2]), (3, [0, 1])] : List (ℕ × List ℕ)).length = (0, 1) from rfl]
  simp [List.eraseIdx, sd3_2]

lemma linkage3_eval : linkage (calc_separation coords3) 3 =
    [⟨0, 1, 0.01, 2⟩, ⟨2, 3, 50, 3⟩] := by
  show (iterN (linkStep (calc_separation coords3)) 2
    ⟨[(0, [0]), (1, [1]), (2, [2])], [], 3⟩).rows = _
  rw [show (2 : ℕ) = 1 + 1 from rfl, iterN, link3_s1,
    show (1 : ℕ) = 0 + 1 from rfl, iterN, link3_s2, iterN]

lemma sel34_eval : selectStep coords3 (calc_separation coords3) ⟨[], [], none⟩
    (4, [2, 0, 1]) = ⟨[], [], some [2, 0, 1]⟩ := by
  have hge : ¬ listMax (([2, 0, 1] : List ℕ).map (fun m =>
      sepVec (get_centre [2, 0, 1] coords3 (calc_separation coords3))
        (coords3.getD m Vec3.zero))) <
      get_rad ((([2, 0, 1] : List ℕ).length : ℝ) ^ (-(1 / 2) : ℝ)) := by
    rw [centre34_eval, map34_eval, listMax3_eval,
      show ((([2, 0, 1] : List ℕ).length : ℕ) : ℝ) = (3 : ℝ) by simp]
    intro hlt
    linarith [breakeven3_lt_one]
  exact selectStep_reject coords3 (calc_separation coords3) ⟨[], [], none⟩ 4
    [2, 0, 1] rfl hge

lemma sel33_eval : selectStep coords3 (calc_separation coords3)
    ⟨[], [], some [2, 0, 1]⟩ (3, [0, 1]) =
    ⟨[0, 1], [(3, ⟨[0, 1], [calc_centroid [unitVec 0.01 0, unitVec 0 0]],
      relInt2⟩)], some [0, 1]⟩ := by
  have hlt : listMax (([0, 1] : List ℕ).map (fun m =>
      sepVec (get_centre [0, 1] coords3 (calc_separation coords3))
        (coords3.getD m Vec3.zero))) <
      get_rad ((([0, 1] : List ℕ).length : ℝ) ^ (-(1 / 2) : ℝ)) := by
    rw [centre33_eval, map33_eval, listMax_pair_self,
      show ((([0, 1] : List ℕ).length : ℕ) : ℝ) = (2 : ℝ) by simp]
    exact breakeven2_gt
  rw [selectStep_accept coords3 (calc_separation coords3) ⟨[], [], some [2, 0, 1]⟩
    3 [0, 1] rfl hlt]
  rw [centre33_eval, map33_eval, listMax_pair_self]
  norm_num [relInt2]

lemma pipeline3_eval : pipeline coords3 =
    Except.ok
      [(3, ⟨[0, 1], [calc_centroid [unitVec 0.01 0, unitVec 0 0]], relInt2⟩),
       (2, ⟨[2], [unitVec 0.01 0, unitVec 0 0], 1.0⟩)] := by
  simp only [pipeline]
  rw [show coords3.length = 3 from rfl, linkage3_eval,
    show extract_levels [⟨0, 1, 0.01, 2⟩, ⟨2, 3, 50, 3⟩] (List.range 3) =
      [(3, [0, 1]), (4, [2, 0, 1])] from rfl]
  simp only [do_clustering]
  rw [show sortDesc [(3, [0, 1]), (4, [2, 0, 1])] =
    [(4, [2, 0, 1]), (3, [0, 1])] from rfl]
  rw [List.foldl_cons, sel34_eval, List.foldl_cons, sel33_eval, List.foldl_nil]
  rfl

/-! ## Claim theorems: the concrete scenarios -/

/-- C2 counterexample: on the two-pairs input the first returned record
covers the pair {2, 3} but its integration-time multiplier is strictly
below 1, refuting the claim's "integration-time multiplier greater than
1.0" as stated. -/
theorem C2_counterexample :
    outRecords4.length = 2 ∧
    (outRecords4.getD 0 noRecord).2.members = [2, 3] ∧
    (outRecords4.getD 0 noRecord).2.int_time < 1 := by
  rw [outRecords4_eval]
  exact ⟨rfl, rfl, relInt2_lt_one⟩

/-- C2 (amended): on the 4-target two-pairs input the selector returns
exactly two PointingRecords, one per pair, each centred on the centroid
(spherical midpoint) of its own pair, with equal multipliers
`sensitivity_at(max_dist)^-2 / 2` strictly between 1/2 and 1 — not greater
than 1.0 — and no record merges all four targets. -/
theorem C2_two_pairs_amended :
    pipeline coords4 = Except.ok
      [(5, ⟨[2, 3], [calc_centroid [unitVec 5 0, unitVec 5.01 0]], relInt2⟩),
       (4, ⟨[0, 1], [calc_centroid [unitVec 0 0, unitVec 0.01 0]], relInt2⟩)] ∧
    1 / 2 < relInt2 ∧ relInt2 < 1 :=
  ⟨pipeline4_eval, relInt2_gt_half, relInt2_lt_one⟩

/-- C1: on the 3-target input (tight pair {0, 1} plus isolated target 2)
the leftover singleton record for target 2 does get multiplier `1.0`, but
its stored centre is `coords[members]` for the stale loop variable
`members = [0, 1]` — the previously accepted pair's coordinate array — and
not the singleton's own position `unitVec 50 0`. -/
theorem C1_stale_singleton_centre :
    pipeline coords3 = Except.ok
      [(3, ⟨[0, 1], [calc_centroid [unitVec 0.01 0, unitVec 0 0]], relInt2⟩),
       (2, ⟨[2], [unitVec 0.01 0, unitVec 0 0], 1.0⟩)] ∧
    [unitVec 0.01 0, unitVec 0 0] ≠ [unitVec 50 0] := by
  refine ⟨pipeline3_eval, ?_⟩
  intro h
  have hlen := congrArg List.length h
  simp at hlen

lemma cross_sub_swap (u v : Vec3) :
    Vec3.cross (v.sub u) (u.sub v) = Vec3.zero := by
  show Vec3.mk ((v.y - u.y) * (u.z - v.z) - (v.z - u.z) * (u.y - v.y))
    ((v.z - u.z) * (u.x - v.x) - (v.x - u.x) * (u.z - v.z))
    ((v.x - u.x) * (u.y - v.y) - (v.y - u.y) * (u.x - v.x)) = Vec3.mk 0 0 0
  congr 1 <;> ring

lemma norm_zero_vec : Vec3.zero.norm = 0 := by
  show Real.sqrt (Vec3.zero.dot Vec3.zero) = 0
  rw [show Vec3.zero.dot Vec3.zero = 0 from by unfold Vec3.dot Vec3.zero; ring,
    Real.sqrt_zero]

/-- C9: on a degenerate candidate whose first and last members coincide
(targets at ra 0°, 10°, 0°), `get_centre` does take the circumcentre branch,
and there the cross-product factor `K` of `calc_circumcentre` is `0`: the
code divides by `8*K² = 0` with no detection and no per-cluster
"degenerate geometry" condition anywhere in `do_clustering`. -/
theorem C9_degenerate_circumcentre :
    get_centre [0, 1, 2] [unitVec 0 0, unitVec 10 0, unitVec 0 0]
      (fun _ _ => 0) =
      calc_circumcentre [unitVec 0 0, unitVec 10 0, unitVec 0 0] ∧
    circumK [unitVec 0 0, unitVec 10 0, unitVec 0 0] = 0 := by
  constructor
  · have harg : argmax (([0, 1, 2] : List ℕ).map (fun m =>
        sepVec (calc_centroid [unitVec 0 0, unitVec 0 0])
          (([unitVec 0 0, unitVec 10 0, unitVec 0 0] : List Vec3).getD m
            Vec3.zero))) = 1 := by
      show argmax [sepVec (calc_centroid [unitVec 0 0, unitVec 0 0]) (unitVec 0 0),
        sepVec (calc_centroid [unitVec 0 0, unitVec 0 0]) (unitVec 10 0),
        sepVec (calc_centroid [unitVec 0 0, unitVec 0 0]) (unitVec 0 0)] = 1
      rw [sep_centroid_eval 0 0 0 0 0
          (abs_eval (Or.inl (by norm_num)) (by norm_num)) (by norm_num)
          (abs_eval (Or.inl (by norm_num)) (by norm_num)) (by norm_num),
        sep_centroid_eval 0 0 10 0 10
          (abs_eval (Or.inl (by norm_num)) (by norm_num)) (by norm_num)
          (abs_eval (Or.inr (by norm_num)) (by norm_num)) (by norm_num)]
      norm_num [argmax, argmaxAux]
    have h := get_centre_argmax_mid [0, 1, 2]
      [unitVec 0 0, unitVec 10 0, unitVec 0 0] (fun _ _ => 0) 1 harg
      (by decide) (by decide)
    exact h
  · show 0.5 * (Vec3.cross ((unitVec 10 0).sub (unitVec 0 0))
      ((unitVec 0 0).sub (unitVec 10 0))).norm = 0
    rw [cross_sub_swap, norm_zero_vec]
    norm_num

/-! ## Structural facts about the clusterer -/

lemma pairList_mem {n : ℕ} {pq : ℕ × ℕ} (h : pq ∈ pairList n) :
    pq.1 < pq.2 ∧ pq.2 < n := by
  unfold pairList at h
  rcases List.mem_flatMap.mp h with ⟨i, hi, hpq⟩
  rcases List.mem_map.mp hpq with ⟨j, hj, rfl⟩
  rcases List.mem_range'.mp hj with ⟨k, hk, rfl⟩
  have hin : i < n := List.mem_range.mp hi
  constructor <;> simp <;> omega

lemma pairList_zero_one_mem {n : ℕ} (h : 2 ≤ n) : ((0, 1) : ℕ × ℕ) ∈ pairList n := by
  unfold pairList
  apply List.mem_flatMap.mpr
  refine ⟨0, List.mem_range.mpr (by omega), ?_⟩
  apply List.mem_map.mpr
  refine ⟨1, List.mem_range'.mpr ⟨0, by omega, by omega⟩, rfl⟩

lemma selectMin_mem (f : ℕ × ℕ → ℝ) :
    ∀ (ps : List (ℕ × ℕ)) (best : ℕ × ℕ), selectMin f ps best ∈ best :: ps := by
  intro ps
  induction ps with
  | nil => intro best; simp [selectMin]
  | cons p ps ih =>
    intro best
    simp only [selectMin]
    split
    · rcases List.mem_cons.mp (ih p) with h | h
      · simp [h]
      · simp [List.mem_cons.mpr (Or.inr (List.mem_cons.mpr (Or.inr h)))]
    · rcases List.mem_cons.mp (ih best) with h | h
      · simp [h]
      · simp [List.mem_cons.mpr (Or.inr (List.mem_cons.mpr (Or.inr h)))]

lemma bestPair_valid (f : ℕ × ℕ → ℝ) (n : ℕ) (h : 2 ≤ n) :
    (bestPair f n).1 < (bestPair f n).2 ∧ (bestPair f n).2 < n := by
  have h01 := pairList_zero_one_mem h
  rcases hpl : pairList n with _ | ⟨p, ps⟩
  · rw [hpl] at h01; simp at h01
  · have hb : bestPair f n = selectMin f ps p := by unfold bestPair; rw [hpl]
    have hm : selectMin f ps p ∈ pairList n := by
      rw [hpl]; exact selectMin_mem f ps p
    rw [hb]
    exact pairList_mem hm

lemma getD_mem {α : Type} (dflt : α) :
    ∀ (l : List α) (i : ℕ), i < l.length → l.getD i dflt ∈ l := by
  intro l
  induction l with
  | nil => intro i h; simp at h
  | cons a t ih =>
    intro i h
    cases i with
    | zero => simp
    | succ j =>
      have hmem := ih j (by simpa using h)
      show t.getD j dflt ∈ a :: t
      exact List.mem_cons_of_mem a hmem

lemma perm_getD_eraseIdx {α : Type} (dflt : α) :
    ∀ (l : List α) (i : ℕ), i < l.length →
      l.Perm (l.getD i dflt :: l.eraseIdx i) := by
  intro l
  induction l with
  | nil => intro i h; simp at h
  | cons a t ih =>
    intro i h
    cases i with
    | zero => exact List.Perm.refl _
    | succ j =>
      have hj : j < t.length := by simpa using h
      show (a :: t).Perm (t.getD j dflt :: a :: t.eraseIdx j)
      exact ((ih j hj).cons a).trans (List.Perm.swap _ _ _)

lemma perm_two_eraseIdx {α : Type} (dflt : α) :
    ∀ (l : List α) (p q : ℕ), p < q → q < l.length →
      l.Perm (l.getD p dflt :: l.getD q dflt :: (l.eraseIdx q).eraseIdx p) := by
  intro l
  induction l with
  | nil => intro p q _ hq; simp at hq
  | cons a t ih =>
    intro p q hpq hq
    obtain ⟨j, rfl⟩ : ∃ j, q = j + 1 := ⟨q - 1, by omega⟩
    have hj : j < t.length := by simpa using hq
    cases p with
    | zero =>
      show (a :: t).Perm (a :: t.getD j dflt :: t.eraseIdx j)
      exact (perm_getD_eraseIdx dflt t j hj).cons a
    | succ i =>
      have hij : i < j := by omega
      show (a :: t).Perm
        (t.getD i dflt :: t.getD j dflt :: a :: (t.eraseIdx j).eraseIdx i)
      exact (((ih i j hij hj).cons a).trans (List.Perm.swap _ _ _)).trans
        ((List.Perm.swap _ _ _).cons _)

lemma extract_go_snoc (N : ℕ) (row : LinkRow) :
    ∀ (rows : List LinkRow) (idx : ℕ) (acc : List (ℕ × List ℕ)),
      extract_levels_go N (rows ++ [row]) idx acc =
        extract_levels_go N rows idx acc ++
          [(idx + rows.length + N,
            (if N - 1 < row.id1
             then lookupD (extract_levels_go N rows idx acc) row.id1
             else [row.id1]) ++
            (if N - 1 < row.id2
             then lookupD (extract_levels_go N rows idx acc) row.id2
             else [row.id2]))] := by
  intro rows
  induction rows with
  | nil => intro idx acc; simp [extract_levels_go]
  | cons r rs ih =>
    intro idx acc
    show extract_levels_go N (rs ++ [row]) (idx + 1) _ = _
    rw [ih]
    have hidx : idx + 1 + rs.length + N = idx + (r :: rs).length + N := by
      simp [List.length_cons]; omega
    rw [hidx]
    rfl

lemma lookupD_append_of_mem (l1 l2 : List (ℕ × List ℕ)) (k : ℕ)
    (h : k ∈ l1.map Prod.fst) : lookupD (l1 ++ l2) k = lookupD l1 k := by
  unfold lookupD
  rw [List.find?_append]
  have hs : (l1.find? (fun p => p.1 == k)).isSome := by
    rw [List.find?_isSome]
    rcases List.mem_map.mp h with ⟨p, hp, hpk⟩
    exact ⟨p, hp, by simp [hpk]⟩
  rcases Option.isSome_iff_exists.mp hs with ⟨v, hv⟩
  rw [hv]
  rfl

lemma lookupD_append_new (l1 : List (ℕ × List ℕ)) (k : ℕ) (v : List ℕ)
    (h : k ∉ l1.map Prod.fst) : lookupD (l1 ++ [(k, v)]) k = v := by
  unfold lookupD
  rw [List.find?_append]
  have hn : l1.find? (fun p => p.1 == k) = none := by
    rw [List.find?_eq_none]
    intro p hp
    simp only [beq_iff_eq]
    intro hk
    exact h (List.mem_map.mpr ⟨p, hp, hk⟩)
  rw [hn]
  simp [List.find?]

lemma flatten_map_singleton (l : List ℕ) :
    (l.map (fun i => [i])).flatten = l := by
  induction l with
  | nil => rfl
  | cons a t ih => simp [ih]

lemma linkInit_inv (N : ℕ) : LinkInv N (linkInit N) := by
  refine ⟨rfl, by simp [linkInit], ?_, ?_, rfl, ?_, by simp [extract_levels_go]⟩
  · show (((List.range N).map (fun i => (i, [i]))).map Prod.snd).flatten.Perm
      (List.range N)
    rw [List.map_map]
    show ((List.range N).map (fun i => [i])).flatten.Perm (List.range N)
    rw [flatten_map_singleton]
  · intro p hp
    rcases List.mem_map.mp hp with ⟨i, hi, rfl⟩
    simpa using List.mem_range.mp hi
  · intro p hp
    rcases List.mem_map.mp hp with ⟨i, hi, rfl⟩
    have : i < N := List.mem_range.mp hi
    simp only []
    rw [if_neg (by omega)]

lemma linkStep_eq (d : ℕ → ℕ → ℝ) (st : LinkState)
    (h : 2 ≤ st.active.length) :
    linkStep d st =
      ⟨((st.active.eraseIdx
            (bestPair (stepDist d st.active) st.active.length).2).eraseIdx
          (bestPair (stepDist d st.active) st.active.length).1) ++
        [(st.nextId,
          (st.active.getD (bestPair (stepDist d st.active) st.active.length).1
            (0, [])).2 ++
          (st.active.getD (bestPair (stepDist d st.active) st.active.length).2
            (0, [])).2)],
       st.rows ++
        [⟨(st.active.getD (bestPair (stepDist d st.active) st.active.length).1
            (0, [])).1,
          (st.active.getD (bestPair (stepDist d st.active) st.active.length).2
            (0, [])).1,
          stepDist d st.active (bestPair (stepDist d st.active) st.active.length),
          ((st.active.getD (bestPair (stepDist d st.active) st.active.length).1
              (0, [])).2 ++
           (st.active.getD (bestPair (stepDist d st.active) st.active.length).2
              (0, [])).2).length⟩],
       st.nextId + 1⟩ := by
  simp only [linkStep]
  rw [if_pos h]

lemma linkStep_inv (d : ℕ → ℕ → ℝ) (N : ℕ) (st : LinkState) (hN : 1 ≤ N)
    (hinv : LinkInv N st) (hlen : 2 ≤ st.active.length) :
    LinkInv N (linkStep d st) := by
  obtain ⟨h1, h2, h3, h4, h5, h6, h7⟩ := hinv
  have hbp := bestPair_valid (stepDist d st.active) st.active.length hlen
  set pq := bestPair (stepDist d st.active) st.active.length with hpqdef
  obtain ⟨hplt, hqlt⟩ := hbp
  have hp_lt : pq.1 < st.active.length := lt_trans hplt hqlt
  set cp := st.active.getD pq.1 (0, []) with hcpdef
  set cq := st.active.getD pq.2 (0, []) with hcqdef
  have hcpmem : cp ∈ st.active := getD_mem _ _ _ hp_lt
  have hcqmem : cq ∈ st.active := getD_mem _ _ _ hqlt
  have hperm2 : st.active.Perm
      (cp :: cq :: (st.active.eraseIdx pq.2).eraseIdx pq.1) :=
    perm_two_eraseIdx (0, []) st.active pq.1 pq.2 hplt hqlt
  set rest := (st.active.eraseIdx pq.2).eraseIdx pq.1 with hrestdef
  set row : LinkRow :=
    ⟨cp.1, cq.1, stepDist d st.active pq, (cp.2 ++ cq.2).length⟩ with hrowdef
  have hstep : linkStep d st =
      ⟨rest ++ [(st.nextId, cp.2 ++ cq.2)], st.rows ++ [row], st.nextId + 1⟩ :=
    linkStep_eq d st hlen
  rw [hstep]
  set D := extract_levels_go N st.rows 0 [] with hDdef
  have hres_p := h6 cp hcpmem
  have hres_q := h6 cq hcqmem
  have hval1 : (if N - 1 < row.id1 then lookupD D row.id1 else [row.id1]) =
      cp.2 := hres_p
  have hval2 : (if N - 1 < row.id2 then lookupD D row.id2 else [row.id2]) =
      cq.2 := hres_q
  have hkey : 0 + st.rows.length + N = st.nextId := by omega
  have hsnoc2 : extract_levels_go N (st.rows ++ [row]) 0 [] =
      D ++ [(st.nextId, cp.2 ++ cq.2)] := by
    rw [extract_go_snoc N row st.rows 0 [], hval1, hval2, hkey]
  unfold LinkInv
  dsimp only
  refine ⟨?_, ?_, ?_, ?_, ?_, ?_, ?_⟩
  · simp only [List.length_append, List.length_cons, List.length_nil]
    omega
  · have e1 : (st.active.eraseIdx pq.2).length = st.active.length - 1 :=
      List.length_eraseIdx_of_lt hqlt
    have e2 : rest.length = st.active.length - 2 := by
      rw [hrestdef, List.length_eraseIdx_of_lt (by rw [e1]; omega), e1]
      omega
    simp only [List.length_append, List.length_cons, List.length_nil]
    omega
  · have h2p := (hperm2.map Prod.snd).flatten
    simp only [List.map_cons, List.flatten_cons] at h2p
    simp only [List.map_append, List.flatten_append, List.map_cons,
      List.map_nil, List.flatten_cons, List.flatten_nil, List.append_nil]
    have e3 : (cp.2 ++ cq.2) ++ (rest.map Prod.snd).flatten =
        cp.2 ++ (cq.2 ++ (rest.map Prod.snd).flatten) :=
      List.append_assoc _ _ _
    apply List.Perm.trans _ h3
    apply List.Perm.trans List.perm_append_comm
    rw [e3]
    exact h2p.symm
  · intro p hp
    rcases List.mem_append.mp hp with h | h
    · have hpm : p ∈ st.active :=
        List.mem_of_mem_eraseIdx (List.mem_of_mem_eraseIdx h)
      have := h4 p hpm
      omega
    · obtain rfl := List.mem_singleton.mp h
      show st.nextId < st.nextId + 1
      omega
  · rw [hsnoc2]
    simp only [List.map_append, List.map_cons, List.map_nil, h5,
      List.length_append, List.length_cons, List.length_nil]
    rw [h1, List.range'_1_concat]
  · intro p hp
    rw [hsnoc2]
    rcases List.mem_append.mp hp with hmem | hmem
    · have hpact : p ∈ st.active :=
        List.mem_of_mem_eraseIdx (List.mem_of_mem_eraseIdx hmem)
      have hold := h6 p hpact
      by_cases hcase : N - 1 < p.1
      · rw [if_pos hcase] at hold ⊢
        rw [lookupD_append_of_mem]
        · exact hold
        · rw [h5, List.mem_range']
          have hplt' := h4 p hpact
          exact ⟨p.1 - N, by omega, by omega⟩
      · rw [if_neg hcase] at hold ⊢
        exact hold
    · obtain rfl := List.mem_singleton.mp hmem
      show (if N - 1 < st.nextId
        then lookupD (D ++ [(st.nextId, cp.2 ++ cq.2)]) st.nextId
        else [st.nextId]) = cp.2 ++ cq.2
      rw [if_pos (by omega : N - 1 < st.nextId)]
      apply lookupD_append_new
      rw [h5]
      intro hmem'
      rw [List.mem_range'] at hmem'
      obtain ⟨i, hi, he⟩ := hmem'
      omega
  · intro q hq m hm
    rw [hsnoc2] at hq
    rcases List.mem_append.mp hq with h | h
    · exact h7 q h m hm
    · obtain rfl := List.mem_singleton.mp h
      have hm2 : m ∈ cp.2 ++ cq.2 := hm
      have hm' : m ∈ (st.active.map Prod.snd).flatten := by
        rcases List.mem_append.mp hm2 with h | h
        · exact List.mem_flatten_of_mem (List.mem_map.mpr ⟨cp, hcpmem, rfl⟩) h
        · exact List.mem_flatten_of_mem (List.mem_map.mpr ⟨cq, hcqmem, rfl⟩) h
      exact List.mem_range.mp (h3.mem_iff.mp hm')

lemma iterN_succ_out {α : Type} (f : α → α) :
    ∀ (k : ℕ) (a : α), iterN f (k + 1) a = f (iterN f k a) := by
  intro k
  induction k with
  | zero => intro a; rfl
  | succ n ih =>
    intro a
    show iterN f (n + 1) (f a) = f (iterN f (n + 1) a)
    rw [ih (f a)]
    rfl

lemma iter_inv (d : ℕ → ℕ → ℝ) (N : ℕ) (hN : 1 ≤ N) :
    ∀ k, k ≤ N - 1 →
      LinkInv N (iterN (linkStep d) k (linkInit N)) ∧
      (iterN (linkStep d) k (linkInit N)).rows.length = k := by
  intro k
  induction k with
  | zero => intro _; exact ⟨linkInit_inv N, rfl⟩
  | succ n ih =>
    intro hk
    obtain ⟨hinv, hrows⟩ := ih (by omega)
    have hlen2 : 2 ≤ (iterN (linkStep d) n (linkInit N)).active.length := by
      obtain ⟨g1, g2, g3, g4, g5, g6, g7⟩ := hinv
      omega
    rw [iterN_succ_out]
    refine ⟨linkStep_inv d N _ hN hinv hlen2, ?_⟩
    rw [linkStep_eq d _ hlen2]
    simp only [List.length_append, List.length_cons, List.length_nil]
    omega

/-- C7: for any base distance matrix and any `N ≥ 2` targets, the
(spec-modelled) complete-linkage clusterer emits exactly `N - 1` merge rows,
and `extract_levels` decodes the root node `2N - 2` to a member list that is
a permutation of (contains exactly once each of) the `N` target indices. -/
theorem C7_tree_completeness (d : ℕ → ℕ → ℝ) (N : ℕ) (labels : List ℕ)
    (hN : 2 ≤ N) (hl : labels.length = N) : treeOK d N labels := by
  have hN1 : 1 ≤ N := by omega
  obtain ⟨hinv, hrows⟩ := iter_inv d N hN1 (N - 2) (by omega)
  set st := iterN (linkStep d) (N - 2) (linkInit N) with hstdef
  obtain ⟨h1, h2, h3, h4, h5, h6, h7⟩ := hinv
  have hlen2 : st.active.length = 2 := by omega
  have h2' : 2 ≤ st.active.length := by omega
  obtain ⟨a, b, hab⟩ := List.length_eq_two.mp hlen2
  have hfin : iterN (linkStep d) (N - 1) (linkInit N) = linkStep d st := by
    rw [show N - 1 = (N - 2) + 1 by omega, iterN_succ_out]
  have hbp := bestPair_valid (stepDist d st.active) st.active.length h2'
  have hpq01 : bestPair (stepDist d st.active) st.active.length = (0, 1) := by
    obtain ⟨hp, hq⟩ := hbp
    have e1 : (bestPair (stepDist d st.active) st.active.length).1 = 0 := by omega
    have e2 : (bestPair (stepDist d st.active) st.active.length).2 = 1 := by omega
    rw [Prod.ext_iff]
    exact ⟨e1, e2⟩
  have hstep0 := linkStep_eq d st h2'
  rw [hpq01] at hstep0
  rw [hab] at hstep0
  have hstep : linkStep d st =
      ⟨[(st.nextId, a.2 ++ b.2)],
       st.rows ++ [⟨a.1, b.1, stepDist d [a, b] (0, 1),
         (a.2 ++ b.2).length⟩],
       st.nextId + 1⟩ := by
    rw [hstep0]
    rfl
  have hinv' := linkStep_inv d N st hN1 ⟨h1, h2, h3, h4, h5, h6, h7⟩ h2'
  rw [hstep] at hinv'
  obtain ⟨g1, g2, g3, g4, g5, g6, g7⟩ := hinv'
  have hnid : st.nextId = 2 * N - 2 := by omega
  constructor
  · show (iterN (linkStep d) (N - 1) (linkInit N)).rows.length = N - 1
    rw [hfin, hstep]
    simp only [List.length_append, List.length_cons, List.length_nil]
    omega
  · show (lookupD (extract_levels (iterN (linkStep d) (N - 1) (linkInit N)).rows
      labels) (2 * N - 2)).Perm (List.range N)
    unfold extract_levels
    rw [hl, hfin, hstep]
    have hmem : ((st.nextId, a.2 ++ b.2) : ℕ × List ℕ) ∈
        ([(st.nextId, a.2 ++ b.2)] : List (ℕ × List ℕ)) := by simp
    have hres := g6 _ hmem
    rw [if_pos (by omega : N - 1 < (st.nextId, a.2 ++ b.2).1)] at hres
    rw [show 2 * N - 2 = st.nextId from by omega]
    show (lookupD (extract_levels_go N (st.rows ++
      [⟨a.1, b.1, stepDist d [a, b] (0, 1), (a.2 ++ b.2).length⟩]) 0 [])
      st.nextId).Perm (List.range N)
    rw [hres]
    have hflat := g3
    simp only [List.map_cons, List.map_nil, List.flatten_cons,
      List.flatten_nil, List.append_nil] at hflat
    exact hflat

/-- Witness for C7 at `N = 2` with the zero distance matrix. -/
theorem C7_tree_completeness_witness :
    2 ≤ 2 ∧ ([0, 1] : List ℕ).length = 2 ∧
      treeOK (fun _ _ => (0 : ℝ)) 2 [0, 1] :=
  ⟨by norm_num, rfl, C7_tree_completeness (fun _ _ => (0 : ℝ)) 2 [0, 1]
    (by norm_num) rfl⟩

/-! ## Structural facts about the selector -/

lemma contains_iff_mem (l : List ℕ) (a : ℕ) : l.contains a = true ↔ a ∈ l := by
  simp [List.contains_iff_exists_mem_beq]

lemma contains_false_iff (l : List ℕ) (a : ℕ) :
    l.contains a = false ↔ a ∉ l := by
  constructor
  · intro h hm
    rw [(contains_iff_mem l a).mpr hm] at h
    simp at h
  · intro h
    cases hc : l.contains a with
    | false => rfl
    | true => exact absurd ((contains_iff_mem _ _).mp hc) h

lemma selectStep_inv (coords : List Vec3) (seps : ℕ → ℕ → ℝ) (N : ℕ)
    (st : SelState) (c : ℕ × List ℕ) (hinv : SelInv N st)
    (hbound : ∀ m ∈ c.2, m < N) :
    SelInv N (selectStep coords seps st c) := by
  obtain ⟨h1, h2, h3⟩ := hinv
  obtain ⟨k, ms⟩ := c
  cases hany : ms.any (fun m => st.assigned.contains m) with
  | true =>
    rw [selectStep_skip coords seps st k ms hany]
    exact ⟨h1, h2, h3⟩
  | false =>
    have hnotmem : ∀ m ∈ ms, m ∉ st.assigned := by
      intro m hm hmem
      exact List.any_eq_false.mp hany m hm ((contains_iff_mem _ _).mpr hmem)
    by_cases hlt : listMax (ms.map (fun m =>
        sepVec (get_centre ms coords seps) (coords.getD m Vec3.zero))) <
        get_rad ((ms.length : ℝ) ^ (-(1 / 2) : ℝ))
    · rw [selectStep_accept coords seps st k ms hany hlt]
      refine ⟨?_, ?_, ?_⟩
      · show st.assigned ++ ms = _
        rw [List.map_append, List.flatten_append, ← h1]
        simp
      · show List.Pairwise _ (st.info ++ _)
        rw [List.pairwise_append]
        refine ⟨h2, by simp, ?_⟩
        intro p hp q hq
        obtain rfl := List.mem_singleton.mp hq
        intro m hmp hmq
        have hmass : m ∈ st.assigned := by
          rw [h1]
          exact List.mem_flatten_of_mem (List.mem_map.mpr ⟨p, hp, rfl⟩) hmp
        exact hnotmem m hmq hmass
      · intro r hr m hm
        rcases List.mem_append.mp hr with h | h
        · exact h3 r h m hm
        · obtain rfl := List.mem_singleton.mp h
          exact hbound m hm
    · rw [selectStep_reject coords seps st k ms hany hlt]
      exact ⟨h1, h2, h3⟩

lemma foldl_selectStep_inv (coords : List Vec3) (seps : ℕ → ℕ → ℝ) (N : ℕ) :
    ∀ (todo : List (ℕ × List ℕ)) (st : SelState), SelInv N st →
      (∀ c ∈ todo, ∀ m ∈ c.2, m < N) →
      SelInv N (todo.foldl (selectStep coords seps) st) := by
  intro todo
  induction todo with
  | nil => intro st h _; exact h
  | cons c l ih =>
    intro st h hb
    rw [List.foldl_cons]
    exact ih _ (selectStep_inv coords seps N st c h (hb c (by simp)))
      (fun c1 hc1 => hb c1 (by simp [hc1]))

lemma selectStep_lastMembers (coords : List Vec3) (seps : ℕ → ℕ → ℝ)
    (st : SelState) (c : ℕ × List ℕ) :
    (selectStep coords seps st c).lastMembers = some c.2 := by
  obtain ⟨k, ms⟩ := c
  cases hany : ms.any (fun m => st.assigned.contains m) with
  | true => rw [selectStep_skip coords seps st k ms hany]
  | false =>
    by_cases hlt : listMax (ms.map (fun m =>
        sepVec (get_centre ms coords seps) (coords.getD m Vec3.zero))) <
        get_rad ((ms.length : ℝ) ^ (-(1 / 2) : ℝ))
    · rw [selectStep_accept coords seps st k ms hany hlt]
    · rw [selectStep_reject coords seps st k ms hany hlt]

lemma foldl_lastMembers (coords : List Vec3) (seps : ℕ → ℕ → ℝ) :
    ∀ (todo : List (ℕ × List ℕ)) (st : SelState), todo ≠ [] →
      ∃ ms, (todo.foldl (selectStep coords seps) st).lastMembers = some ms := by
  intro todo
  induction todo with
  | nil => intro st h; exact absurd rfl h
  | cons c l ih =>
    intro st _
    rw [List.foldl_cons]
    by_cases hl : l = []
    · subst hl
      exact ⟨c.2, selectStep_lastMembers coords seps st c⟩
    · exact ih _ hl

lemma insertDesc_perm (x : ℕ × List ℕ) :
    ∀ (l : List (ℕ × List ℕ)), (insertDesc x l).Perm (x :: l) := by
  intro l
  induction l with
  | nil => exact List.Perm.refl _
  | cons y ys ih =>
    simp only [insertDesc]
    split
    · exact List.Perm.refl _
    · exact (ih.cons y).trans (List.Perm.swap _ _ _)

lemma sortDesc_perm (l : List (ℕ × List ℕ)) : (sortDesc l).Perm l := by
  induction l with
  | nil => exact List.Perm.refl _
  | cons a t ih =>
    show (insertDesc a (sortDesc t)).Perm (a :: t)
    exact (insertDesc_perm a (sortDesc t)).trans (ih.cons a)

/-- C4: for every input of at least 2 targets the pipeline succeeds, the
member sets of the returned PointingRecords are pairwise disjoint, and
their union is exactly the set of input target indices. -/
theorem C4_coverage (coords : List Vec3) (hN : 2 ≤ coords.length) :
    coverageOK coords := by
  unfold coverageOK
  set N := coords.length with hNdef
  set d := calc_separation coords with hddef
  have hN1 : 1 ≤ N := by omega
  obtain ⟨hinv, hrows⟩ := iter_inv d N hN1 (N - 1) (le_refl _)
  obtain ⟨h1, h2, h3, h4, h5, h6, h7⟩ := hinv
  set allC := extract_levels (linkage d N) (List.range N) with hallC
  have hallC_eq : allC =
      extract_levels_go N (iterN (linkStep d) (N - 1) (linkInit N)).rows 0 [] := by
    rw [hallC]
    unfold extract_levels linkage
    rw [List.length_range]
  have hbound : ∀ c ∈ allC, ∀ m ∈ c.2, m < N := by
    rw [hallC_eq]; exact h7
  have hkeys : allC.map Prod.fst = List.range' N (N - 1) := by
    rw [hallC_eq, h5, hrows]
  have hne : allC ≠ [] := by
    intro h0
    have hlen := congrArg List.length hkeys
    rw [h0] at hlen
    simp [List.length_range'] at hlen
    omega
  set st := (sortDesc allC).foldl (selectStep coords d) ⟨[], [], none⟩ with hstdef
  have hinvS : SelInv N st := by
    apply foldl_selectStep_inv
    · exact ⟨rfl, List.Pairwise.nil, by simp⟩
    · intro c hc
      exact hbound c ((sortDesc_perm allC).mem_iff.mp hc)
  obtain ⟨s1, s2, s3⟩ := hinvS
  have hpip : pipeline coords = do_clustering coords allC d := rfl
  rw [hpip]
  simp only [do_clustering]
  rw [← hstdef, ← hNdef]
  set ua := (List.range N).filter (fun i => !(st.assigned.contains i)) with huadef
  by_cases hua : ua.isEmpty
  · rw [if_pos hua]
    refine ⟨st.info, rfl, s2, ?_⟩
    intro i
    constructor
    · rintro ⟨r, hr, hm⟩
      exact s3 r hr i hm
    · intro hi
      have hass : i ∈ st.assigned := by
        by_contra hna
        have hmemf : i ∈ ua := by
          rw [huadef, List.mem_filter]
          refine ⟨List.mem_range.mpr hi, ?_⟩
          simp only [Bool.not_eq_true']
          exact (contains_false_iff _ _).mpr hna
        rw [List.isEmpty_iff.mp hua] at hmemf
        simp at hmemf
      rw [s1] at hass
      rcases List.mem_flatten.mp hass with ⟨msx, hms, him⟩
      rcases List.mem_map.mp hms with ⟨r, hr, rfl⟩
      exact ⟨r, hr, him⟩
  · rw [if_neg hua]
    have hsne : sortDesc allC ≠ [] := by
      intro h0
      have hperm := sortDesc_perm allC
      rw [h0] at hperm
      exact hne hperm.nil_eq.symm
    obtain ⟨ms, hms⟩ := foldl_lastMembers coords d (sortDesc allC)
      ⟨[], [], none⟩ hsne
    rw [show st.lastMembers = some ms from hms]
    refine ⟨_, rfl, ?_, ?_⟩
    · rw [List.pairwise_append]
      refine ⟨s2, ?_, ?_⟩
      · apply List.Pairwise.map
          (fun i => ((i, ⟨[i], ms.map (fun m => coords.getD m Vec3.zero), 1.0⟩) :
            ℕ × PointingRecord))
          (fun a b (hab : a ≠ b) => ?_)
          ((List.nodup_range N).filter _)
        intro m hm
        simp only [List.mem_singleton] at hm ⊢
        subst hm
        simp [hab]
      · intro p hp q hq
        rcases List.mem_map.mp hq with ⟨i, hiu, rfl⟩
        intro m hmp
        have hmass : m ∈ st.assigned := by
          rw [s1]
          exact List.mem_flatten_of_mem (List.mem_map.mpr ⟨p, hp, rfl⟩) hmp
        have hiun : i ∉ st.assigned := by
          have hfil := (List.mem_filter.mp hiu).2
          simp only [Bool.not_eq_true'] at hfil
          exact (contains_false_iff _ _).mp hfil
        intro hmi
        simp only [List.mem_singleton] at hmi
        subst hmi
        exact hiun hmass
    · intro i
      constructor
      · rintro ⟨r, hr, hm⟩
        rcases List.mem_append.mp hr with h | h
        · exact s3 r h i hm
        · rcases List.mem_map.mp h with ⟨j, hj, rfl⟩
          have hij : i = j := by simpa using hm
          subst hij
          exact List.mem_range.mp (List.mem_filter.mp hj).1
      · intro hi
        by_cases hass : i ∈ st.assigned
        · rw [s1] at hass
          rcases List.mem_flatten.mp hass with ⟨msx, hms2, him⟩
          rcases List.mem_map.mp hms2 with ⟨r, hr, rfl⟩
          exact ⟨r, List.mem_append.mpr (Or.inl hr), him⟩
        · have hiu : i ∈ ua := by
            rw [huadef, List.mem_filter]
            refine ⟨List.mem_range.mpr hi, ?_⟩
            simp only [Bool.not_eq_true']
            exact (contains_false_iff _ _).mpr hass
          exact ⟨(i, ⟨[i], ms.map (fun m => coords.getD m Vec3.zero), 1.0⟩),
            List.mem_append.mpr (Or.inr (List.mem_map.mpr ⟨i, hiu, rfl⟩)),
            by simp⟩

/-- Witness for C4 on the 4-target two-pairs scenario. -/
theorem C4_coverage_witness : 2 ≤ coords4.length ∧ coverageOK coords4 :=
  ⟨by simp [coords4], C4_coverage coords4 (by simp [coords4])⟩

end Vastligo
